import Mathlib

/-!
A shallow embedding of the copy/move subsystem of a version-control client
(`subversion/libsvn_client/copy.c`) together with proofs about its
dispatch logic, its repository-to-repository commit drive, its
working-copy batch copy, its mergeinfo calculation and its error
reconciliation.

Conventions of the embedding:

* URLs and local paths are represented by `UPath`: a flag saying whether
  the path is a URL plus the list of path segments (the C code works on
  `/`-separated strings; segment lists give the same ancestor/child
  structure without string surgery).  URI-decoding is the identity here.
* External collaborators (the RA session, the WC administrative layer,
  the log-message callback, cancellation) become oracle fields of
  explicit environment structures; each oracle's answer corresponds to
  the return value of one external C call.
* `svn_error_t` chains become `SvnErr`: the outermost link plus the list
  of wrapped child links.  Error messages are constructors of `ErrMsg`
  mirroring the C format strings.
* Functions of this file keep the names of the C functions they embed
  (up to Lean naming rules).
-/

namespace SvnCopy

/-- Node kinds, mirroring `svn_node_kind_t`. -/
inductive NodeKind
| none
| file
| dir
| unknown
deriving DecidableEq, Repr

/-- Revision selectors, mirroring `svn_opt_revision_t` (the kind together
with its payload where the kind carries one). -/
inductive Rev
| unspecified
| committed
| previous
| base
| working
| head
| number (n : Int)
| date (d : Int)
deriving DecidableEq, Repr

/-- Kinds that require a working-copy path: `base`, `committed`,
`previous` (the peg-revision check at the top of `setup_copy`). -/
def Rev.isWcOnlyKind : Rev → Bool
| Rev.base => true
| Rev.committed => true
| Rev.previous => true
| _ => false

/-- Kinds other than `unspecified` and `working`; such an operative
revision triggers the WC-to-repository promotion in `setup_copy`. -/
def Rev.opNeedsRepo : Rev → Bool
| Rev.unspecified => false
| Rev.working => false
| _ => true

/-- Kind is `unspecified` or `head` (the guard of `svn_client_move`). -/
def Rev.isUnspecifiedOrHead : Rev → Bool
| Rev.unspecified => true
| Rev.head => true
| _ => false

/-- `SVN_INVALID_REVNUM`. -/
def invalidRevnum : Int := -1

/-- A URL or local path: whether `svn_path_is_url` holds of it, plus its
`/`-separated segments. -/
structure UPath where
  isUrl : Bool
  segs : List String
deriving DecidableEq, Repr

instance : Inhabited UPath := ⟨⟨false, []⟩⟩

/-- `svn_path_dirname`: drop the final component. -/
def UPath.dirname (p : UPath) : UPath := ⟨p.isUrl, p.segs.dropLast⟩

/-- `svn_path_basename`: the final component. -/
def UPath.basename (p : UPath) : String := p.segs.getLast?.getD ""

/-- `svn_path_join` with a single-component second argument. -/
def UPath.join (p : UPath) (s : String) : UPath := ⟨p.isUrl, p.segs ++ [s]⟩

/-- `svn_path_join` with a relative path as second argument. -/
def UPath.joinSegs (p : UPath) (rel : List String) : UPath :=
  ⟨p.isUrl, p.segs ++ rel⟩

/-- `svn_path_is_child` on segment lists: the remainder of `child` below
`parent`, provided `child` is strictly below `parent`. -/
def segsIsChild : List String → List String → Option (List String)
| [], [] => Option.none
| [], c :: cs => some (c :: cs)
| _ :: _, [] => Option.none
| p :: ps, c :: cs => if p = c then segsIsChild ps cs else Option.none

/-- `svn_path_is_child` on `UPath`: only paths of the same class can be
in an ancestor relation (a URL never textually extends a local path). -/
def UPath.isChildOf? (parent child : UPath) : Option (List String) :=
  if parent.isUrl = child.isUrl then segsIsChild parent.segs child.segs
  else Option.none

/-- Longest common prefix of two segment lists. -/
def longestAncestorSegs : List String → List String → List String
| [], _ => []
| _, [] => []
| a :: as', b :: bs => if a = b then a :: longestAncestorSegs as' bs else []

/-- `svn_path_get_longest_ancestor`; for paths of different classes the
result is empty. -/
def UPath.longestAncestor (a b : UPath) : UPath :=
  if a.isUrl = b.isUrl then ⟨a.isUrl, longestAncestorSegs a.segs b.segs⟩
  else ⟨a.isUrl, []⟩

/-- Stable error codes surfaced by the subsystem (`svn_error_codes.h`
members that `copy.c` produces or inspects). -/
inductive ErrCode
| base
| nodeUnknownKind
| entryExists
| fsAlreadyExists
| fsNotFound
| wcNotDirectory
| wcObstructedUpdate
| unsupportedFeature
| clientBadRevision
| raIllegalUrl
| raNoReposUuid
| raConnectionFailed
| clientMultipleSourcesDisallowed
| entryMissingUrl
| assertionFailed
| cancelled
deriving DecidableEq, Repr

/-- Human-readable error messages, one constructor per C format string
(arguments of the format string become constructor arguments). -/
inductive ErrMsg
| noMsg
| pathDoesNotExist (p : UPath)
| pathAlreadyExists (p : UPath)
| pathNotDirectory (p : UPath)
| notSameRepository (src dst : UPath)
| cannotMoveUrlIntoItself (p : UPath)
| pathNotFoundInRevision (p : UPath) (rev : Int)
| pathNotFoundInHead (p : UPath)
| entryExistsWorkingMissing (p : UPath)
| foreignRepository (p : UPath)
| revisionTypeRequiresWc
| cannotMixSources
| cannotCopyIntoOwnChild (src dst : UPath)
| cannotMovePathIntoItself (p : UPath)
| movesBetweenWcAndRepo
| noUrlForPath (p : UPath)
| cannotSpecifyRevisionsWithMove
| commitFailed
| commitSucceededButOthers
| errorUnlockingDirs
| errorPostCommitCleanup
deriving DecidableEq, Repr

/-- One link of an error chain: its code and its message. -/
structure ErrLink where
  code : ErrCode
  msg : ErrMsg
deriving DecidableEq, Repr

/-- An `svn_error_t` chain: the outermost link plus the wrapped links in
outside-in order. -/
structure SvnErr where
  top : ErrLink
  children : List ErrLink
deriving DecidableEq, Repr

/-- The `apr_err` of the outermost error. -/
def SvnErr.code (e : SvnErr) : ErrCode := e.top.code

/-- The whole chain of an error, outside-in. -/
def SvnErr.chain (e : SvnErr) : List ErrLink := e.top :: e.children

/-- `svn_error_create`/`svn_error_createf`: a single-link error. -/
def svnError (c : ErrCode) (m : ErrMsg) : SvnErr := ⟨⟨c, m⟩, []⟩

/-- `svn_error_quick_wrap`: a new outermost link with the child's code
and the given message, the child chain hanging below it. -/
def quickWrap (e : SvnErr) (m : ErrMsg) : SvnErr :=
  ⟨⟨e.top.code, m⟩, e.top :: e.children⟩

/-- `svn_error_compose`: append the second chain at the end of the
first. -/
def SvnErr.compose (e extra : SvnErr) : SvnErr :=
  ⟨e.top, e.children ++ extra.top :: extra.children⟩

/-- List helpers used throughout: number of occurrences of an element. -/
def occ {α : Type} [DecidableEq α] (q : α) : List α → Nat
| [] => 0
| a :: l => (if a = q then 1 else 0) + occ q l

/-- Number of elements satisfying a Boolean predicate. -/
def countIf {α : Type} (p : α → Bool) : List α → Nat
| [] => 0
| a :: l => (if p a then 1 else 0) + countIf p l

/-- Concatenation of the images of a list-valued function. -/
def concatMap {α β : Type} (f : α → List β) : List α → List β
| [] => []
| a :: l => f a ++ concatMap f l

/-!  ### Error reconciliation of the WC-to-repository handler

`reconcile_errors` combines the optional commit, unlock and cleanup
errors of `wc_to_repos_copy` into a single composite error.  -/

/-- `reconcile_errors` from `copy.c`. -/
def reconcile_errors (commit_err unlock_err cleanup_err : Option SvnErr) :
    Option SvnErr :=
  if commit_err.isNone ∧ unlock_err.isNone ∧ cleanup_err.isNone then
    Option.none
  else
    let err := match commit_err with
      | some ce => quickWrap ce ErrMsg.commitFailed
      | Option.none => svnError ErrCode.base ErrMsg.commitSucceededButOthers
    let err := match unlock_err with
      | some ue => err.compose (quickWrap ue ErrMsg.errorUnlockingDirs)
      | Option.none => err
    let err := match cleanup_err with
      | some ke => err.compose (quickWrap ke ErrMsg.errorPostCommitCleanup)
      | Option.none => err
    some err

/-!  ### The entry points and `setup_copy`

`setup_copy` validates the user input, builds the copy pairs, applies the
WC-to-repository promotion and dispatches to one of the four locality
handlers.  The handlers themselves are external to this part of the
embedding: they are an oracle field of `ClientEnv`, and `setup_copy`
additionally returns the list of handler invocations it performed so the
dispatch behaviour is observable. -/

/-- A user-supplied copy source (`svn_client_copy_source_t`). -/
structure CopySource where
  path : UPath
  revision : Rev
  peg_revision : Rev
deriving DecidableEq, Repr

instance : Inhabited CopySource :=
  ⟨⟨default, Rev.unspecified, Rev.unspecified⟩⟩

/-- A working pair (`svn_client__copy_pair_t`), restricted to the fields
`setup_copy` reads and writes. -/
structure CopyPair where
  src : UPath
  src_op_revision : Rev
  src_peg_revision : Rev
  dst : UPath
deriving DecidableEq, Repr

instance : Inhabited CopyPair :=
  ⟨⟨default, Rev.unspecified, Rev.unspecified, default⟩⟩

/-- The slice of a WC entry that `setup_copy` consults for the
promotion: the recorded URL and revision. -/
structure WcEntry where
  url : Option UPath
  revision : Int
deriving DecidableEq, Repr

/-- The four locality handlers. -/
inductive Handler
| wcToWc
| wcToRepos
| reposToWc
| reposToRepos
deriving DecidableEq, Repr

/-- Commit information returned by the repository-side handlers. -/
structure CommitInfo where
  revision : Int
deriving DecidableEq, Repr

/-- Environment of `setup_copy`: the WC entry lookup used by the
promotion (`svn_wc_adm_probe_open3` + `svn_wc__entry_versioned`) and the
oracle running whichever handler is dispatched to (handler, pairs,
`is_move`, `force`). -/
structure ClientEnv where
  wcEntry : UPath → Except SvnErr WcEntry
  runHandler : Handler → List CopyPair → Bool → Bool →
    Except SvnErr (Option CommitInfo)

/-- Modelled from the spec: `svn_opt_resolve_revisions` is not under
`src/`; per the spec, an unspecified peg becomes `head` for URLs and
`working` for local paths, and an unspecified operative revision becomes
the peg. -/
def resolveRevisions (peg op : Rev) (is_url : Bool) : Rev × Rev :=
  let peg' := if peg = Rev.unspecified then
      (if is_url then Rev.head else Rev.working) else peg
  let op' := if op = Rev.unspecified then peg' else op
  (peg', op')

/-- The peg-revision sanity loop of `setup_copy`: a URL source may not
carry a WC-only peg kind. -/
def checkPegRevisions : List CopySource → Except SvnErr Unit
| [] => Except.ok ()
| s :: rest =>
  if s.path.isUrl && s.peg_revision.isWcOnlyKind then
    Except.error (svnError ErrCode.clientBadRevision ErrMsg.revisionTypeRequiresWc)
  else checkPegRevisions rest

/-- Pair construction for one source.  With several sources the
destination becomes `dst / basename(src)` and homogeneity with the first
source's class is enforced; with a single source `dst` is used
verbatim. -/
def mkPair (dst_path_in : UPath) (multi srcs_are_urls : Bool)
    (s : CopySource) : Except SvnErr CopyPair :=
  let rr := resolveRevisions s.peg_revision s.revision s.path.isUrl
  if multi then
    if s.path.isUrl ≠ srcs_are_urls then
      Except.error (svnError ErrCode.unsupportedFeature ErrMsg.cannotMixSources)
    else
      Except.ok ⟨s.path, rr.2, rr.1, dst_path_in.join s.path.basename⟩
  else Except.ok ⟨s.path, rr.2, rr.1, dst_path_in⟩

/-- The pair-building phase of `setup_copy` over all sources. -/
def buildPairs (sources : List CopySource) (dst_path_in : UPath)
    (srcs_are_urls : Bool) : Except SvnErr (List CopyPair) :=
  sources.mapM (mkPair dst_path_in (decide (1 < sources.length)) srcs_are_urls)

/-- The local-to-local guard of `setup_copy`: a source may not be copied
into its own child. -/
def checkOwnChild : List CopyPair → Except SvnErr Unit
| [] => Except.ok ()
| p :: rest =>
  if (UPath.isChildOf? p.src p.dst).isSome then
    Except.error (svnError ErrCode.unsupportedFeature
      (ErrMsg.cannotCopyIntoOwnChild p.src p.dst))
  else checkOwnChild rest

/-- The move guard of `setup_copy`: a path may not be moved onto
itself. -/
def checkMoveSelf : List CopyPair → Except SvnErr Unit
| [] => Except.ok ()
| p :: rest =>
  if p.src = p.dst then
    Except.error (svnError ErrCode.unsupportedFeature
      (ErrMsg.cannotMovePathIntoItself p.src))
  else checkMoveSelf rest

/-- The WC-to-repository promotion loop: each source is replaced by the
URL its WC entry records (failing when the entry has none) and its peg
becomes the entry's revision. -/
def promotePairs (env : ClientEnv) : List CopyPair →
    Except SvnErr (List CopyPair)
| [] => Except.ok []
| p :: rest => do
  let entry ← env.wcEntry p.src
  match entry.url with
  | Option.none =>
      Except.error (svnError ErrCode.entryMissingUrl (ErrMsg.noUrlForPath p.src))
  | some u => do
      let rest' ← promotePairs env rest
      let p' : CopyPair := ⟨u, p.src_op_revision, Rev.number entry.revision, p.dst⟩
      Except.ok (p' :: rest')

/-- The move-checking / promotion tail of `setup_copy` (its
`if (is_move) ... else ...` block).  Returns the pairs together with the
final value of `srcs_are_urls`. -/
def moveOrPromote (env : ClientEnv) (pairs : List CopyPair)
    (srcs_are_urls dst_is_url is_move : Bool) :
    Except SvnErr (List CopyPair × Bool) :=
  if is_move then
    if srcs_are_urls = dst_is_url then do
      checkMoveSelf pairs
      Except.ok (pairs, srcs_are_urls)
    else
      Except.error (svnError ErrCode.unsupportedFeature ErrMsg.movesBetweenWcAndRepo)
  else
    if !srcs_are_urls && pairs.any (fun p => p.src_op_revision.opNeedsRepo) then do
      let pairs' ← promotePairs env pairs
      Except.ok (pairs', true)
    else Except.ok (pairs, srcs_are_urls)

/-- The validation part of `setup_copy`, up to and including the
promotion; the dispatch itself is split off below. -/
def setupCopyPairs (env : ClientEnv) (sources : List CopySource)
    (dst_path_in : UPath) (is_move : Bool) :
    Except SvnErr (List CopyPair × Bool) :=
  match sources with
  | [] => Except.error (svnError ErrCode.assertionFailed ErrMsg.noMsg)
  | s0 :: _ => do
    let srcs_are_urls := s0.path.isUrl
    let dst_is_url := dst_path_in.isUrl
    checkPegRevisions sources
    let pairs ← buildPairs sources dst_path_in srcs_are_urls
    (if !srcs_are_urls && !dst_is_url then checkOwnChild pairs else Except.ok ())
    moveOrPromote env pairs srcs_are_urls dst_is_url is_move

/-- The dispatch matrix at the bottom of `setup_copy`. -/
def dispatchHandler (srcs_are_urls dst_is_url : Bool) : Handler :=
  if !srcs_are_urls && !dst_is_url then Handler.wcToWc
  else if !srcs_are_urls && dst_is_url then Handler.wcToRepos
  else if srcs_are_urls && !dst_is_url then Handler.reposToWc
  else Handler.reposToRepos

/-- `setup_copy`: validation, promotion, then exactly one handler
invocation.  The second component lists the handler invocations
performed (empty when validation failed).  The WC-to-WC and
repo-to-WC branches null the commit info, as the C code does. -/
def setup_copy (env : ClientEnv) (sources : List CopySource)
    (dst_path_in : UPath) (is_move force : Bool) :
    Except SvnErr (Option CommitInfo) × List Handler :=
  match setupCopyPairs env sources dst_path_in is_move with
  | Except.error e => (Except.error e, [])
  | Except.ok (pairs, srcs_are_urls) =>
    let h := dispatchHandler srcs_are_urls dst_path_in.isUrl
    let r := env.runHandler h pairs is_move force
    let r := match h with
      | Handler.wcToWc => r.map (fun _ => Option.none)
      | Handler.reposToWc => r.map (fun _ => Option.none)
      | _ => r
    (r, [h])

/-- `svn_client_copy4`: the multiple-sources guard, one `setup_copy`
attempt, and the retry-as-child fallback.  The second component lists
the destinations handed to `setup_copy`, in order. -/
def svn_client_copy4 (env : ClientEnv) (sources : List CopySource)
    (dst_path : UPath) (copy_as_child : Bool) :
    Except SvnErr (Option CommitInfo) × List UPath :=
  if 1 < sources.length ∧ copy_as_child = false then
    (Except.error (svnError ErrCode.clientMultipleSourcesDisallowed ErrMsg.noMsg),
     [])
  else
    match (setup_copy env sources dst_path false true).1 with
    | Except.ok ci => (Except.ok ci, [dst_path])
    | Except.error e =>
      if copy_as_child = true ∧ sources.length = 1
          ∧ (e.code = ErrCode.entryExists ∨ e.code = ErrCode.fsAlreadyExists) then
        let src_basename := (sources.headD default).path.basename
        let dst2 := dst_path.join src_basename
        ((setup_copy env sources dst2 false true).1, [dst_path, dst2])
      else (Except.error e, [dst_path])

/-- The sources list `svn_client_move5` builds: every path is paired
with the `head` revision for both operative and peg revision. -/
def move5Sources (src_paths : List UPath) : List CopySource :=
  src_paths.map (fun p => ⟨p, Rev.head, Rev.head⟩)

/-- `svn_client_move5`: the multiple-sources guard, one `setup_copy`
attempt over `move5Sources`, and the retry-as-child fallback.  The
second component lists the destinations handed to `setup_copy`. -/
def svn_client_move5 (env : ClientEnv) (src_paths : List UPath)
    (dst_path : UPath) (force move_as_child : Bool) :
    Except SvnErr (Option CommitInfo) × List UPath :=
  if 1 < src_paths.length ∧ move_as_child = false then
    (Except.error (svnError ErrCode.clientMultipleSourcesDisallowed ErrMsg.noMsg),
     [])
  else
    let sources := move5Sources src_paths
    match (setup_copy env sources dst_path true force).1 with
    | Except.ok ci => (Except.ok ci, [dst_path])
    | Except.error e =>
      if move_as_child = true ∧ src_paths.length = 1
          ∧ (e.code = ErrCode.entryExists ∨ e.code = ErrCode.fsAlreadyExists) then
        let src_basename := (src_paths.headD default).basename
        let dst2 := dst_path.join src_basename
        ((setup_copy env sources dst2 true force).1, [dst_path, dst2])
      else (Except.error e, [dst_path])

/-- `svn_client_move` (the oldest, single-source move entry point): any
revision kind other than `unspecified`/`head` is rejected up front; the
second component again lists the destinations handed to
`setup_copy`. -/
def svn_client_move (env : ClientEnv) (src_path : UPath)
    (src_revision : Rev) (dst_path : UPath) (force : Bool) :
    Except SvnErr (Option CommitInfo) × List UPath :=
  if !src_revision.isUnspecifiedOrHead then
    (Except.error (svnError ErrCode.unsupportedFeature
       ErrMsg.cannotSpecifyRevisionsWithMove), [])
  else
    ((setup_copy env [⟨src_path, src_revision, src_revision⟩] dst_path
        true force).1,
     [dst_path])

/-!  ### Common ancestors (`get_copy_pair_ancestors`) -/

/-- The source side of `get_copy_pair_ancestors`: the longest common
ancestor of all `src`s, folded over the pairs. -/
def getCopyPairAncestorsSrc (pairs : List CopyPair) : UPath :=
  match pairs with
  | [] => default
  | p :: rest => rest.foldl (fun acc q => acc.longestAncestor q.src) p.src

/-- The destination side of `get_copy_pair_ancestors`: with one pair the
destination itself, otherwise the dirname of the first destination (all
destinations share that parent). -/
def getCopyPairAncestorsDst (pairs : List CopyPair) : UPath :=
  match pairs with
  | [] => default
  | p :: rest => if rest.isEmpty then p.dst else p.dst.dirname

/-- The cross ancestor of `get_copy_pair_ancestors`: the longest common
ancestor of the source and destination ancestors. -/
def getCopyPairAncestorsCommon (pairs : List CopyPair) : UPath :=
  (getCopyPairAncestorsSrc pairs).longestAncestor (getCopyPairAncestorsDst pairs)

/-!  ### The WC-to-WC batch copy (`do_wc_to_wc_copies`)

The embedding makes the lock state observable: the result records, next
to the error (if any), which locks were still held when the function
returned and how many per-pair copies were attempted. -/

/-- Environment of `do_wc_to_wc_copies`: the admin-lock open on the
common destination parent, the per-iteration cancellation check, the
per-pair `svn_wc_copy2` outcome and the final `svn_wc_adm_close`
outcome.  `Option.none` means the call succeeded. -/
structure WcCopiesEnv where
  admOpenErr : UPath → Option SvnErr
  cancelAt : Nat → Option SvnErr
  wcCopyErr : Nat → Option SvnErr
  admCloseErr : Option SvnErr

/-- Result of `do_wc_to_wc_copies`: the returned error (if any), the
admin locks still held at the moment of return, and the number of
`svn_wc_copy2` calls that were made. -/
structure WcCopiesResult where
  result : Option SvnErr
  locksHeld : List UPath
  copiesAttempted : Nat
deriving DecidableEq, Repr

/-- How the pair loop of `do_wc_to_wc_copies` ended: normally, via the
`SVN_ERR` of the cancellation check, or via the `break` on a failing
`svn_wc_copy2`.  Each exit carries the number of copies attempted. -/
inductive WcLoopExit
| finished (copies : Nat)
| canceled (e : SvnErr) (copies : Nat)
| copyFailed (e : SvnErr) (copies : Nat)
deriving DecidableEq, Repr

/-- The pair loop of `do_wc_to_wc_copies`, iterating over pair indices
`i, i+1, ...` for `n` pairs. -/
def wcCopiesLoop (env : WcCopiesEnv) : Nat → Nat → WcLoopExit
| _, 0 => WcLoopExit.finished 0
| i, n + 1 =>
  match env.cancelAt i with
  | some e => WcLoopExit.canceled e 0
  | Option.none =>
    match env.wcCopyErr i with
    | some e => WcLoopExit.copyFailed e 1
    | Option.none =>
      match wcCopiesLoop env (i + 1) n with
      | WcLoopExit.finished c => WcLoopExit.finished (c + 1)
      | WcLoopExit.canceled e c => WcLoopExit.canceled e (c + 1)
      | WcLoopExit.copyFailed e c => WcLoopExit.copyFailed e (c + 1)

/-- The common destination parent computed at the top of
`do_wc_to_wc_copies` (the destination ancestor, dirnamed once more for a
single pair). -/
def wcCopiesDstParent (pairs : List CopyPair) : UPath :=
  let dst_parent := getCopyPairAncestorsDst pairs
  if pairs.length = 1 then dst_parent.dirname else dst_parent

/-- `do_wc_to_wc_copies`: open one admin lock on the common destination
parent, run the pair loop, sleep for timestamps, and return the first
error via `SVN_ERR(err)` - which in the C code happens *before* the
`svn_wc_adm_close(adm_access)` call, so on the error exits the lock is
still held; only the success path closes the lock. -/
def do_wc_to_wc_copies (env : WcCopiesEnv) (pairs : List CopyPair) :
    WcCopiesResult :=
  let dst_parent := wcCopiesDstParent pairs
  match env.admOpenErr dst_parent with
  | some e => ⟨some e, [], 0⟩
  | Option.none =>
    match wcCopiesLoop env 0 pairs.length with
    | WcLoopExit.canceled e c => ⟨some e, [dst_parent], c⟩
    | WcLoopExit.copyFailed e c => ⟨some e, [dst_parent], c⟩
    | WcLoopExit.finished c =>
      match env.admCloseErr with
      | some e => ⟨some e, [], c⟩
      | Option.none => ⟨Option.none, [], c⟩

/-!  ### The mergeinfo assembler

`get_implied_merge_info` and `calculate_target_merge_info` from
`copy.c`; the mergeinfo container operations (`svn_mergeinfo_merge`,
`svn_mergeinfo__to_string`) live outside `src/` and are modelled from
the spec. -/

/-- A merge range `[start, stop]` (`svn_merge_range_t`). -/
structure MergeRange where
  start : Int
  stop : Int
deriving DecidableEq, Repr

/-- Mergeinfo: a mapping from repository-root-relative path to a list of
merge ranges, as an association list. -/
abbrev Mergeinfo : Type := List (List String × List MergeRange)

/-- Add a rangelist under a key, combining with the ranges already
recorded under that key. -/
def mergeinfoAdd (m : Mergeinfo) (key : List String)
    (rs : List MergeRange) : Mergeinfo :=
  match m with
  | [] => [(key, rs)]
  | kv :: rest =>
    if kv.1 = key then (kv.1, kv.2 ++ rs) :: rest
    else kv :: mergeinfoAdd rest key rs

/-- Modelled from the spec: `svn_mergeinfo_merge` is not under `src/`;
per the spec it combines two mergeinfo mappings into their union,
merging the range lists of shared paths.  The second mapping is merged
into the first. -/
def mergeinfoMerge (a b : Mergeinfo) : Mergeinfo :=
  b.foldl (fun acc kv => mergeinfoAdd acc kv.1 kv.2) a

/-- Text rendering of one range. -/
def mergeRangeToString (r : MergeRange) : String :=
  toString r.start ++ "-" ++ toString r.stop

/-- Text rendering of a mergeinfo mapping. -/
def serializeMergeinfo (m : Mergeinfo) : String :=
  String.intercalate "\n"
    (m.map (fun kv =>
      String.intercalate "/" kv.1 ++ ":" ++
        String.intercalate "," (kv.2.map mergeRangeToString)))

/-- Modelled from the spec: `svn_mergeinfo__to_string` is not under
`src/`; the spec's commit-drive table attaches the mergeinfo property
exactly when the computed mergeinfo is non-empty, so empty mergeinfo
serializes to an absent property value. -/
def mergeinfoToString (m : Mergeinfo) : Option String :=
  if m = ([] : Mergeinfo) then Option.none else some (serializeMergeinfo m)

/-- Environment of the mergeinfo assembler: the repo-root-relative form
of a URL (`svn_client__path_relative_to_root`), the oldest revision at
which a node exists (`svn_client__oldest_rev_at_path`;
`Option.none` models `SVN_INVALID_REVNUM`), and the explicit mergeinfo
recorded on a node in the repository
(`svn_client__get_repos_merge_info`; `Option.none` models a null
hash). -/
structure MergeEnv where
  pathRelativeToRoot : UPath → List String
  oldestRevAtPath : List String → Int → Option Int
  reposMergeInfo : List String → Int → Option Mergeinfo

/-- `get_implied_merge_info`: the single range
`[oldest_rev, rev]` keyed under the repo-root-relative path, or the
empty mapping when the oldest revision is unknown. -/
def get_implied_merge_info (env : MergeEnv) (rel_path path : List String)
    (rev : Int) : Mergeinfo :=
  match env.oldestRevAtPath rel_path rev with
  | Option.none => ([] : Mergeinfo)
  | some oldest => [(path, [⟨oldest, rev⟩])]

/-- `calculate_target_merge_info`: implied mergeinfo of the source,
merged with the explicit mergeinfo recorded on the source node when
present. -/
def calculate_target_merge_info (env : MergeEnv) (src_path_or_url : UPath)
    (src_rel_path : List String) (src_revnum : Int) : Mergeinfo :=
  let src_path := env.pathRelativeToRoot src_path_or_url
  let target := get_implied_merge_info env src_rel_path src_path src_revnum
  match env.reposMergeInfo src_path src_revnum with
  | some src_mi => mergeinfoMerge target src_mi
  | Option.none => target

/-!  ### The repository-to-repository handler

`repos_to_repos_copy` performs the whole batch as one commit
transaction.  The embedding follows the C function phase by phase:
resurrection marking with anchor raising, RA session open with the
cross-repository error mapping, the per-pair preparation loop, the
log-message convention, the mergeinfo/paths loop, and the path-driven
editor drive through `path_driver_cb_func`. -/

/-- `path_driver_info_t`. -/
structure PDInfo where
  src_url : UPath
  src_path : List String
  dst_path : List String
  src_kind : NodeKind
  src_revnum : Int
  resurrection : Bool
  mergeinfo : Option String
deriving DecidableEq, Repr

/-- Calls made on the commit editor (`svn_delta_editor_t`). -/
inductive EditorAction
| deleteEntry (path : List String) (rev : Int)
| addFile (path : List String) (copyfromUrl : UPath) (copyfromRev : Int)
| changeFileProp (path : List String) (name value : String)
| closeFile (path : List String)
| addDirectory (path : List String) (copyfromUrl : UPath) (copyfromRev : Int)
| changeDirProp (path : List String) (name value : String)
deriving DecidableEq, Repr

/-- `SVN_PROP_MERGE_INFO`. -/
def mergeInfoPropName : String := "svn:mergeinfo"

/-- The ADD arm of `path_driver_cb_func`: `add_file` or `add_directory`
according to `src_kind`, with copyfrom `(src_url, src_revnum)`; the
mergeinfo property is changed when the serialized mergeinfo is present;
file batons are closed, directory batons stay open for children. -/
def addActions (info : PDInfo) (path : List String) : List EditorAction :=
  if info.src_kind = NodeKind.file then
    EditorAction.addFile path info.src_url info.src_revnum ::
      ((match info.mergeinfo with
        | some m => [EditorAction.changeFileProp path mergeInfoPropName m]
        | Option.none => []) ++
       [EditorAction.closeFile path])
  else
    EditorAction.addDirectory path info.src_url info.src_revnum ::
      (match info.mergeinfo with
       | some m => [EditorAction.changeDirProp path mergeInfoPropName m]
       | Option.none => [])

/-- `path_driver_cb_func`: decide `do_delete`/`do_add` from
`(resurrection, is_move, path)` exactly as the C callback does, then
emit the delete and/or the ADD actions.  `valid` models
`svn_path_check_valid`. -/
def path_driver_cb_func (valid : List String → Bool) (is_move : Bool)
    (info : PDInfo) (path : List String) :
    Except SvnErr (List EditorAction) :=
  let flags : Bool × Bool :=
    if info.resurrection then (false, !is_move)
    else if is_move then
      (if info.src_path = path then (true, false) else (false, true))
    else (false, true)
  let delActs :=
    if flags.1 then [EditorAction.deleteEntry path invalidRevnum] else []
  if flags.2 then
    if valid path then Except.ok (delActs ++ addActions info path)
    else Except.error (svnError ErrCode.assertionFailed ErrMsg.noMsg)
  else Except.ok delActs

/-- Whether an ADD action list carries a mergeinfo property change. -/
def hasMergeinfoProp : List EditorAction → Bool
| [] => false
| EditorAction.changeFileProp _ n _ :: rest =>
    n = mergeInfoPropName || hasMergeinfoProp rest
| EditorAction.changeDirProp _ n _ :: rest =>
    n = mergeInfoPropName || hasMergeinfoProp rest
| _ :: rest => hasMergeinfoProp rest

/-- The copyfrom carried by the first add in an action list. -/
def addedWithCopyfrom : List EditorAction → Option (UPath × Int)
| [] => Option.none
| EditorAction.addFile _ u r :: _ => some (u, r)
| EditorAction.addDirectory _ u r :: _ => some (u, r)
| _ :: rest => addedWithCopyfrom rest

/-- Whether an action list opens a file baton. -/
def opensFileBaton : List EditorAction → Bool
| [] => false
| EditorAction.addFile _ _ _ :: _ => true
| _ :: rest => opensFileBaton rest

/-- Whether an action list opens a directory baton. -/
def opensDirBaton : List EditorAction → Bool
| [] => false
| EditorAction.addDirectory _ _ _ :: _ => true
| _ :: rest => opensDirBaton rest

/-- A commit item offered to the log-message callback. -/
inductive ItemState
| add
| delete
deriving DecidableEq, Repr

/-- A commit item (`svn_client_commit_item3_t`, restricted to the fields
`repos_to_repos_copy` sets). -/
structure CommitItem where
  url : UPath
  state : ItemState
deriving DecidableEq, Repr

/-- Environment of `repos_to_repos_copy`: the RA session oracles, the
log-message callback (absent when the client installed none), path
validity, and the mergeinfo oracles. -/
structure RREnv where
  openRaErr : UPath → Option SvnErr
  reposRoot : UPath
  latestRev : Int
  resolveRev : Rev → Except SvnErr Int
  reposLocations : UPath → Rev → Rev → Except SvnErr UPath
  checkPath : List String → Int → NodeKind
  logMsgFunc : Option (List CommitItem → Option String)
  validPath : List String → Bool
  merge : MergeEnv

/-- The first resurrection pass: a pair whose source equals its
destination is a resurrection, and when that URL equals the current
session anchor the anchor is raised to its parent (issue #683). -/
def rrMarkResurrections1 (pairs : List CopyPair) (top_url : UPath) :
    UPath × List Bool :=
  pairs.foldl
    (fun acc p =>
      if p.src = p.dst then
        (if p.src = acc.1 then acc.1.dirname else acc.1, acc.2 ++ [true])
      else (acc.1, acc.2 ++ [false]))
    (top_url, [])

/-- The second resurrection pass (after the session is open): a pair
whose source lies below its destination - the destination not being the
repository root - is marked a resurrection and the anchor raised. -/
def rrMarkResurrections2 (repos_root : UPath) (pairs : List CopyPair)
    (top_url : UPath) (res : List Bool) : UPath × List Bool :=
  (pairs.zip res).foldl
    (fun acc pr =>
      if pr.1.dst ≠ repos_root ∧ (UPath.isChildOf? pr.1.dst pr.1.src).isSome then
        (acc.1.dirname, acc.2 ++ [true])
      else (acc.1, acc.2 ++ [pr.2]))
    (top_url, [])

/-- The per-pair preparation loop body of `repos_to_repos_copy`: resolve
the operative revision, trace the object's URL through history, compute
the relative paths, reject a self-move, check source existence at the
source revision and destination absence at head. -/
def rrPrepPair (env : RREnv) (top_url : UPath) (youngest : Int)
    (is_move : Bool) (p : CopyPair) (res : Bool) :
    Except SvnErr PDInfo := do
  let src_revnum ← env.resolveRev p.src_op_revision
  let src ← env.reposLocations p.src p.src_peg_revision p.src_op_revision
  let src_rel := (UPath.isChildOf? top_url src).getD []
  let dst_rel := (UPath.isChildOf? top_url p.dst).getD []
  if src_rel.isEmpty && is_move then
    Except.error (svnError ErrCode.unsupportedFeature
      (ErrMsg.cannotMoveUrlIntoItself src))
  else
    let src_kind := env.checkPath src_rel src_revnum
    if src_kind = NodeKind.none then
      Except.error (svnError ErrCode.fsNotFound
        (ErrMsg.pathNotFoundInRevision src src_revnum))
    else
      let dst_kind := env.checkPath dst_rel youngest
      if dst_kind ≠ NodeKind.none then
        Except.error (svnError ErrCode.fsAlreadyExists
          (ErrMsg.pathAlreadyExists p.dst))
      else
        Except.ok ⟨src, src_rel, dst_rel, src_kind, src_revnum, res,
          Option.none⟩

/-- The preparation phases of `repos_to_repos_copy`: ancestor, the two
resurrection passes, the RA session open with its cross-repository error
mapping, and the per-pair loop.  Returns the final anchor and the path
infos (mergeinfo not yet filled in). -/
def rrPrepare (env : RREnv) (pairs : List CopyPair) (is_move : Bool) :
    Except SvnErr (UPath × List PDInfo) := do
  let top_url0 := getCopyPairAncestorsCommon pairs
  let mark1 := rrMarkResurrections1 pairs top_url0
  match env.openRaErr mark1.1 with
  | some e =>
    if e.code = ErrCode.raIllegalUrl ∧ mark1.1.segs = [] then
      Except.error (svnError ErrCode.unsupportedFeature
        (ErrMsg.notSameRepository (pairs.headD default).src
          (pairs.headD default).dst))
    else Except.error e
  | Option.none =>
    let mark2 := rrMarkResurrections2 env.reposRoot pairs mark1.1 mark1.2
    let youngest := env.latestRev
    let infos ← (pairs.zip mark2.2).mapM
      (fun pr => rrPrepPair env mark2.1 youngest is_move pr.1 pr.2)
    Except.ok (mark2.1, infos)

/-- The commit items offered to the log-message callback: one ADD per
pair plus one DELETE per non-resurrection move pair. -/
def rrCommitItems (top_url : UPath) (is_move : Bool)
    (infos : List PDInfo) : List CommitItem :=
  concatMap
    (fun info =>
      CommitItem.mk (top_url.joinSegs info.dst_path) ItemState.add ::
        (if is_move && !info.resurrection then
          [CommitItem.mk (top_url.joinSegs info.src_path) ItemState.delete]
         else []))
    infos

/-- The log-message step: without a callback the message is empty; a
callback returning no message aborts the operation silently. -/
def rrLogMessage (env : RREnv) (top_url : UPath) (is_move : Bool)
    (infos : List PDInfo) : Option String :=
  match env.logMsgFunc with
  | Option.none => some ""
  | some f => f (rrCommitItems top_url is_move infos)

/-- The mergeinfo half of the paths loop: each info's target mergeinfo
is computed and serialized into it. -/
def rrFillMergeinfo (env : RREnv) (infos : List PDInfo) : List PDInfo :=
  infos.map (fun info =>
    let mi := mergeinfoToString
      (calculate_target_merge_info env.merge info.src_url info.src_path
        info.src_revnum)
    { info with mergeinfo := mi })

/-- The `paths[]` half of the paths loop: every `dst_path`, plus every
`src_path` of a non-resurrection move pair. -/
def rrPathsOfInfos (is_move : Bool) (infos : List PDInfo) :
    List (List String) :=
  concatMap
    (fun info =>
      info.dst_path ::
        (if is_move && !info.resurrection then [info.src_path] else []))
    infos

/-- The `action_hash`: in this revision of the C code it is populated
only inside the log-message branch (one entry per dst path, plus one per
deleted src path); without a log-message callback it stays empty.  The
C hash stores pointers whose mergeinfo is filled in later, so the hash
is built here from the filled infos. -/
def rrActionHash (hasLogFunc is_move : Bool) (infos : List PDInfo) :
    List (List String × PDInfo) :=
  if hasLogFunc then
    concatMap
      (fun info =>
        (info.dst_path, info) ::
          (if is_move && !info.resurrection then [(info.src_path, info)]
           else []))
      infos
  else []

/-- `apr_hash` lookup: the last insertion under a key wins. -/
def lookupLast (m : List (List String × PDInfo)) (k : List String) :
    Option PDInfo :=
  m.foldl (fun acc kv => if kv.1 = k then some kv.2 else acc) Option.none

/-- The editor drive over the flat `paths[]` list: each visited path is
looked up in the action hash and handed to `path_driver_cb_func`.  A
missing entry models the C code dereferencing a null `path_info`
(reachable exactly when no log-message callback populated the hash). -/
def rrDrive (env : RREnv) (is_move : Bool)
    (hash : List (List String × PDInfo)) (paths : List (List String)) :
    Except SvnErr (List EditorAction) :=
  paths.foldlM
    (fun acc path =>
      match lookupLast hash path with
      | Option.none =>
          Except.error (svnError ErrCode.assertionFailed ErrMsg.noMsg)
      | some info =>
          (path_driver_cb_func env.validPath is_move info path).map
            (fun acts => acc ++ acts))
    []

/-- Outcome of `repos_to_repos_copy`: the silent success when the
log-message callback returned no message, or the commit drive with the
`paths[]` list that was fed to the path driver and the editor calls it
produced. -/
inductive RROutcome
| noMessage
| committed (paths : List (List String)) (actions : List EditorAction)
deriving DecidableEq, Repr

/-- `repos_to_repos_copy`. -/
def repos_to_repos_copy (env : RREnv) (pairs : List CopyPair)
    (is_move : Bool) : Except SvnErr RROutcome := do
  let prep ← rrPrepare env pairs is_move
  match rrLogMessage env prep.1 is_move prep.2 with
  | Option.none => Except.ok RROutcome.noMessage
  | some _ =>
    let infos := rrFillMergeinfo env prep.2
    let paths := rrPathsOfInfos is_move infos
    let hash := rrActionHash env.logMsgFunc.isSome is_move infos
    match rrDrive env is_move hash paths with
    | Except.error e => Except.error e
    | Except.ok actions => Except.ok (RROutcome.committed paths actions)

/-- The `paths[]` list of a committed outcome. -/
def rrPathsOfOutcome : Except SvnErr RROutcome → Option (List (List String)) :=
  fun r => match r with
  | Except.ok (RROutcome.committed paths _) => some paths
  | _ => Option.none

/-!  ### The repository-to-WC handler

`repos_to_wc_copy` with its per-pair worker
`repos_to_wc_copy_single`.  The observable output is the list of calls
made on the WC layer, so that the copyfrom attachment is visible. -/

/-- Calls made on the WC layer by the repo-to-WC handler.  `wcAdd`
models `svn_wc_add2` and `addReposFile` models
`svn_wc_add_repos_file2`; their `copyfrom` is the (URL, revision)
pair passed, or `Option.none` when null/invalid were passed. -/
inductive WcAction
| checkout (src dst : UPath)
| wcAdd (dst : UPath) (copyfrom : Option (UPath × Int))
| addReposFile (dst : UPath) (copyfrom : Option (UPath × Int))
| recordMergeInfo (dst : UPath) (mi : Mergeinfo)
| notifyAdd (dst : UPath)
deriving DecidableEq, Repr

/-- The copyfrom attached by a WC add action (`Option.none` for the
other actions). -/
def actionCopyfrom : WcAction → Option (UPath × Int)
| WcAction.wcAdd _ c => c
| WcAction.addReposFile _ c => c
| _ => Option.none

/-- A prepared pair of the repo-to-WC handler. -/
structure RWPair where
  src : UPath
  src_original : UPath
  src_rel : List String
  src_kind : NodeKind
  src_revnum : Int
  src_op_revision : Rev
  src_peg_revision : Rev
  dst : UPath
deriving DecidableEq, Repr

/-- The slice of a WC entry consulted by the logical-obstruction
check. -/
structure WcDstEntry where
  kind : NodeKind
  scheduleDelete : Bool
deriving DecidableEq, Repr

/-- Environment of the repo-to-WC handler. -/
structure RWEnv where
  reposLocations : UPath → Rev → Rev → Except SvnErr UPath
  openRaErr : UPath → Option SvnErr
  resolveRev : Rev → Except SvnErr Int
  checkPath : List String → Int → NodeKind
  ioCheckPath : UPath → NodeKind
  admProbeOpenErr : UPath → Option SvnErr
  dstEntry : UPath → Option WcDstEntry
  raUuid : Except SvnErr (Option String)
  uuidFromPath : UPath → Except SvnErr (Option String)
  cancelAt : Nat → Option SvnErr
  checkoutErr : UPath → UPath → Option SvnErr
  admOpenDstErr : UPath → Option SvnErr
  dstEntryRevAfterCheckout : UPath → Int
  wcAdd2Err : UPath → Option SvnErr
  getFile : List String → Int → Except SvnErr Int
  addReposFileErr : UPath → Option SvnErr
  recordMergeInfoErr : UPath → Option SvnErr
  wcMergeinfo : UPath → Mergeinfo
  hasNotify : Bool
  admCloseErr : Option SvnErr
  merge : MergeEnv

/-- The same-repositories decision of `repos_to_wc_copy`: fetch the RA
session's UUID and the UUID of the destination parent; a failure with a
code other than `SVN_ERR_RA_NO_REPOS_UUID` is returned as the call's
error; a no-UUID failure or a missing UUID makes the repositories count
as different; otherwise the UUIDs are compared. -/
def sameRepositoriesOf (srcRes dstRes : Except SvnErr (Option String)) :
    Except SvnErr Bool :=
  match srcRes with
  | Except.error se =>
    if se.code ≠ ErrCode.raNoReposUuid then Except.error se
    else
      match dstRes with
      | Except.error de =>
        if de.code ≠ ErrCode.raNoReposUuid then Except.error de
        else Except.ok false
      | Except.ok _ => Except.ok false
  | Except.ok src_uuid =>
    match dstRes with
    | Except.error de =>
      if de.code ≠ ErrCode.raNoReposUuid then Except.error de
      else Except.ok false
    | Except.ok dst_uuid =>
      match src_uuid, dst_uuid with
      | some su, some du => Except.ok (su = du)
      | _, _ => Except.ok false

/-- `repos_to_wc_copy_single`: the directory case checks out the
subtree and - only when the repositories are the same - schedules it as
added with copyfrom `(src, revnum)` and records mergeinfo; a foreign
repository is an error after the checkout.  The file case streams the
file and hands it to the WC with copyfrom exactly when the repositories
are the same. -/
def repos_to_wc_copy_single (env : RWEnv) (same_repositories : Bool)
    (pair : RWPair) : Except SvnErr Unit × List WcAction :=
  if pair.src_kind = NodeKind.dir then
    let acts0 := [WcAction.checkout pair.src_original pair.dst]
    match env.checkoutErr pair.src_original pair.dst with
    | some e => (Except.error e, acts0)
    | Option.none =>
      if same_repositories then
        match env.admOpenDstErr pair.dst with
        | some e => (Except.error e, acts0)
        | Option.none =>
          let src_revnum :=
            if pair.src_op_revision = Rev.head then
              env.dstEntryRevAfterCheckout pair.dst
            else pair.src_revnum
          let acts1 := acts0 ++
            [WcAction.wcAdd pair.dst (some (pair.src, src_revnum))]
          match env.wcAdd2Err pair.dst with
          | some e => (Except.error e, acts1)
          | Option.none =>
            let mi := calculate_target_merge_info env.merge pair.src
              pair.src_rel src_revnum
            let extended := mergeinfoMerge (env.wcMergeinfo pair.dst) mi
            let acts2 := acts1 ++ [WcAction.recordMergeInfo pair.dst extended]
            match env.recordMergeInfoErr pair.dst with
            | some e => (Except.error e, acts2)
            | Option.none => (Except.ok (), acts2)
      else
        (Except.error (svnError ErrCode.unsupportedFeature
          (ErrMsg.foreignRepository pair.src)), acts0)
  else if pair.src_kind = NodeKind.file then
    match env.getFile pair.src_rel pair.src_revnum with
    | Except.error e => (Except.error e, [])
    | Except.ok real_rev =>
      let src_revnum :=
        if pair.src_revnum < 0 then real_rev else pair.src_revnum
      let copyfrom :=
        if same_repositories then some (pair.src, src_revnum)
        else Option.none
      let addErr := env.addReposFileErr pair.dst
      let acts1 := [WcAction.addReposFile pair.dst copyfrom]
      let mi := calculate_target_merge_info env.merge pair.src
        pair.src_rel src_revnum
      let extended := mergeinfoMerge (env.wcMergeinfo pair.dst) mi
      let acts2 := acts1 ++ [WcAction.recordMergeInfo pair.dst extended]
      match env.recordMergeInfoErr pair.dst with
      | some e => (Except.error e, acts2)
      | Option.none =>
        match addErr with
        | some e => (Except.error e, acts2)
        | Option.none =>
          if env.hasNotify then (Except.ok (), acts2 ++ [WcAction.notifyAdd pair.dst])
          else (Except.ok (), acts2)
  else
    (Except.ok (), [])

/-- The logical-obstruction check of `repos_to_wc_copy`: an entry for a
destination whose kind is not a directory and which is not scheduled for
deletion obstructs the copy. -/
def rwObstructionCheck (env : RWEnv) : List RWPair → Except SvnErr Unit
| [] => Except.ok ()
| p :: rest =>
  match env.dstEntry p.dst with
  | some ent =>
    if ent.kind ≠ NodeKind.dir ∧ ent.scheduleDelete = false then
      Except.error (svnError ErrCode.wcObstructedUpdate
        (ErrMsg.entryExistsWorkingMissing p.dst))
    else rwObstructionCheck env rest
  | Option.none => rwObstructionCheck env rest

/-- Prepared state of `repos_to_wc_copy` before the pair loop. -/
structure RWPrep where
  rwpairs : List RWPair
  top_src_url : UPath
  top_dst_path : UPath
deriving Repr

/-- The preparation phases of `repos_to_wc_copy`: history tracing of
each source, common ancestors, RA session open, revision resolution,
existence checks on source and destination, the WC probe and the
logical-obstruction check. -/
def repos_to_wc_prepare (env : RWEnv) (pairs : List CopyPair) :
    Except SvnErr RWPrep := do
  let located ← pairs.mapM (fun p => do
    let src ← env.reposLocations p.src p.src_peg_revision p.src_op_revision
    Except.ok (RWPair.mk src p.src [] NodeKind.unknown 0 p.src_op_revision
      p.src_peg_revision p.dst))
  let top_src0 :=
    match located with
    | [] => (default : UPath)
    | q :: rest => rest.foldl (fun acc r => acc.longestAncestor r.src) q.src
  let top_dst :=
    match located with
    | [] => (default : UPath)
    | q :: rest => if rest.isEmpty then q.dst else q.dst.dirname
  let top_src := if pairs.length = 1 then top_src0.dirname else top_src0
  match env.openRaErr top_src with
  | some e => Except.error e
  | Option.none =>
    let withRev ← located.mapM (fun p => do
      let r ← env.resolveRev p.src_op_revision
      Except.ok { p with src_revnum := r })
    let checked ← withRev.mapM (fun p => do
      let rel := (UPath.isChildOf? top_src p.src).getD []
      let kind := env.checkPath rel p.src_revnum
      if kind = NodeKind.none then
        if (0 : Int) ≤ p.src_revnum then
          Except.error (svnError ErrCode.fsNotFound
            (ErrMsg.pathNotFoundInRevision p.src p.src_revnum))
        else
          Except.error (svnError ErrCode.fsNotFound
            (ErrMsg.pathNotFoundInHead p.src))
      else if env.ioCheckPath p.dst ≠ NodeKind.none then
        Except.error (svnError ErrCode.entryExists
          (ErrMsg.pathAlreadyExists p.dst))
      else if env.ioCheckPath p.dst.dirname ≠ NodeKind.dir then
        Except.error (svnError ErrCode.wcNotDirectory
          (ErrMsg.pathNotDirectory p.dst.dirname))
      else
        Except.ok { p with src_rel := rel, src_kind := kind })
    match env.admProbeOpenErr top_dst with
    | some e => Except.error e
    | Option.none => do
      rwObstructionCheck env checked
      Except.ok (RWPrep.mk checked top_src top_dst)

/-- The destination whose UUID is compared against the session's: the
parent of the single destination, or the common destination parent for
several pairs. -/
def rwUuidParent (singlePair : Bool) (top_dst : UPath) : UPath :=
  if singlePair then top_dst.dirname else top_dst

/-- The pair loop of `repos_to_wc_copy`: cancellation check, then the
per-pair worker; the first failure stops the loop.  The performed WC
calls are accumulated. -/
def rwLoop (env : RWEnv) (same : Bool) :
    List RWPair → Nat → Except SvnErr Unit × List WcAction
| [], _ => (Except.ok (), [])
| p :: rest, i =>
  match env.cancelAt i with
  | some e => (Except.error e, [])
  | Option.none =>
    match repos_to_wc_copy_single env same p with
    | (Except.error e, tr) => (Except.error e, tr)
    | (Except.ok _, tr) =>
      let next := rwLoop env same rest (i + 1)
      (next.1, tr ++ next.2)

/-- `repos_to_wc_copy`. -/
def repos_to_wc_copy (env : RWEnv) (pairs : List CopyPair) :
    Except SvnErr Unit × List WcAction :=
  match repos_to_wc_prepare env pairs with
  | Except.error e => (Except.error e, [])
  | Except.ok prep =>
    match sameRepositoriesOf env.raUuid
        (env.uuidFromPath (rwUuidParent (decide (pairs.length = 1))
          prep.top_dst_path)) with
    | Except.error e => (Except.error e, [])
    | Except.ok same =>
      match rwLoop env same prep.rwpairs 0 with
      | (Except.error e, tr) => (Except.error e, tr)
      | (Except.ok _, tr) =>
        match env.admCloseErr with
        | some e => (Except.error e, tr)
        | Option.none => (Except.ok (), tr)

/-- Lookup of the rangelist recorded under a key. -/
def lookupMergeinfo : Mergeinfo → List String → Option (List MergeRange)
| [], _ => Option.none
| kv :: rest, k => if kv.1 = k then some kv.2 else lookupMergeinfo rest k

/-- The destination paths of a successful preparation. -/
def rrPrepDstPathsOf (r : Except SvnErr (UPath × List PDInfo)) :
    Option (List (List String)) :=
  match r with
  | Except.ok pr => some (pr.2.map PDInfo.dst_path)
  | Except.error _ => Option.none

/-!  ### Concrete instances used by the witnesses and counterexamples -/

/-- A client environment whose WC entries carry a URL at revision 7 and
whose handlers succeed; used to exercise the dispatch. -/
def c2env : ClientEnv :=
  { wcEntry := fun _ => Except.ok ⟨some ⟨true, ["svn:", "r", "a"]⟩, 7⟩,
    runHandler := fun _ _ _ _ => Except.ok Option.none }

/-- A local destination. -/
def c2dst : UPath := ⟨false, ["wc", "b"]⟩

/-- A WC source whose operative revision is a number. -/
def c2srcNumber : CopySource := ⟨⟨false, ["wc", "a"]⟩, Rev.number 5, Rev.unspecified⟩

/-- The same WC source with the working operative revision. -/
def c2srcWorking : CopySource := ⟨⟨false, ["wc", "a"]⟩, Rev.working, Rev.unspecified⟩

/-- The error returned by the failing per-pair copy below. -/
def c3err : SvnErr := svnError ErrCode.entryExists ErrMsg.noMsg

/-- A WC-copies environment whose very first `svn_wc_copy2` fails. -/
def c3env : WcCopiesEnv :=
  { admOpenErr := fun _ => Option.none,
    cancelAt := fun _ => Option.none,
    wcCopyErr := fun _ => some c3err,
    admCloseErr := Option.none }

/-- One WC-to-WC pair. -/
def c3pairs : List CopyPair :=
  [⟨⟨false, ["wc", "a"]⟩, Rev.working, Rev.working, ⟨false, ["wc", "b"]⟩⟩]

/-- A repo-to-repo environment for two cross-repository URLs: opening
the session fails with the illegal-URL error. -/
def c4env : RREnv :=
  { openRaErr := fun _ => some (svnError ErrCode.raIllegalUrl ErrMsg.noMsg),
    reposRoot := ⟨true, []⟩,
    latestRev := 0,
    resolveRev := fun _ => Except.ok 0,
    reposLocations := fun u _ _ => Except.ok u,
    checkPath := fun _ _ => NodeKind.none,
    logMsgFunc := Option.none,
    validPath := fun _ => true,
    merge := ⟨fun u => u.segs, fun _ _ => Option.none, fun _ _ => Option.none⟩ }

/-- A pair whose source and destination live in different
repositories (no common URL prefix). -/
def c4pair : CopyPair :=
  ⟨⟨true, ["svnA:", "x"]⟩, Rev.head, Rev.head, ⟨true, ["svnB:", "y"]⟩⟩

/-- Mergeinfo oracles for the duplicate-destination run. -/
def c5merge : MergeEnv :=
  { pathRelativeToRoot := fun u => u.segs.drop 2,
    oldestRevAtPath := fun _ _ => some 1,
    reposMergeInfo := fun _ _ => Option.none }

/-- A repo-to-repo environment under which both sources exist, the
shared destination is absent at head, and a log-message callback
supplies a message. -/
def c5env : RREnv :=
  { openRaErr := fun _ => Option.none,
    reposRoot := ⟨true, ["svn:", "r"]⟩,
    latestRev := 10,
    resolveRev := fun _ => Except.ok 10,
    reposLocations := fun u _ _ => Except.ok u,
    checkPath := fun rel _ => if rel = ["d", "x"] then NodeKind.none else NodeKind.file,
    logMsgFunc := some (fun _ => some "m"),
    validPath := fun _ => true,
    merge := c5merge }

/-- Two sources with the same basename copied into one directory: both
pairs get the same destination URL. -/
def c5pairs : List CopyPair :=
  [⟨⟨true, ["svn:", "r", "a", "x"]⟩, Rev.head, Rev.head,
    ⟨true, ["svn:", "r", "d", "x"]⟩⟩,
   ⟨⟨true, ["svn:", "r", "b", "x"]⟩, Rev.head, Rev.head,
    ⟨true, ["svn:", "r", "d", "x"]⟩⟩]

/-- The path infos `rrPrepare` produces for `c5pairs`. -/
def c5infos0 : List PDInfo :=
  [⟨⟨true, ["svn:", "r", "a", "x"]⟩, ["a", "x"], ["d", "x"], NodeKind.file,
    10, false, Option.none⟩,
   ⟨⟨true, ["svn:", "r", "b", "x"]⟩, ["b", "x"], ["d", "x"], NodeKind.file,
    10, false, Option.none⟩]

/-- A client environment whose handlers report an existing destination
entry; used to exercise the retry-as-child fallback. -/
def c7env : ClientEnv :=
  { wcEntry := fun _ => Except.ok ⟨Option.none, 0⟩,
    runHandler := fun _ _ _ _ =>
      Except.error (svnError ErrCode.entryExists
        (ErrMsg.pathAlreadyExists default)) }

/-- A single WC source. -/
def c7src : CopySource := ⟨⟨false, ["w", "a"]⟩, Rev.working, Rev.unspecified⟩

/-- A WC destination. -/
def c7dst : UPath := ⟨false, ["w", "b"]⟩

/-- Mergeinfo oracles with a known oldest revision and an explicit
mergeinfo on the source. -/
def c8env : MergeEnv :=
  { pathRelativeToRoot := fun u => u.segs.drop 1,
    oldestRevAtPath := fun _ _ => some 3,
    reposMergeInfo := fun _ _ => some [(["other"], [⟨1, 2⟩])] }

/-- A UUID lookup failure whose code is not the no-repository-UUID
code. -/
def c9errConn : SvnErr := svnError ErrCode.raConnectionFailed ErrMsg.noMsg

end SvnCopy

namespace SvnCopy

/-!  ### Theorems -/

/-- Occurrence counting distributes over append. -/
theorem occ_append {α : Type} [DecidableEq α] (q : α) (l1 l2 : List α) :
    occ q (l1 ++ l2) = occ q l1 + occ q l2 := by
  induction l1 with
  | nil => simp [occ]
  | cons a l ih => simp [occ, ih]; omega

/-- A missing element occurs zero times. -/
theorem occ_eq_zero_of_not_mem {α : Type} [DecidableEq α] {q : α}
    {l : List α} (h : q ∉ l) : occ q l = 0 := by
  induction l with
  | nil => rfl
  | cons a t ih =>
    simp only [List.mem_cons, not_or] at h
    have ha : ¬(a = q) := fun hh => h.1 hh.symm
    simp [occ, ha, ih h.2]

/-- In a duplicate-free list a member occurs exactly once. -/
theorem occ_nodup_mem {α : Type} [DecidableEq α] {l : List α}
    (hn : l.Nodup) {q : α} (hq : q ∈ l) : occ q l = 1 := by
  induction l with
  | nil => cases hq
  | cons a t ih =>
    rcases List.mem_cons.mp hq with h | h
    · subst h
      have ha : q ∉ t := (List.nodup_cons.mp hn).1
      simp [occ, occ_eq_zero_of_not_mem ha]
    · have ha : ¬(a = q) := fun hh => (List.nodup_cons.mp hn).1 (hh ▸ h)
      simp [occ, ha, ih (List.nodup_cons.mp hn).2 h]

/-- Membership in a concatenated image. -/
theorem mem_concatMap {α β : Type} {f : α → List β} {b : β} :
    ∀ {l : List α}, b ∈ concatMap f l ↔ ∃ a, a ∈ l ∧ b ∈ f a := by
  intro l
  induction l with
  | nil => simp [concatMap]
  | cons a t ih =>
    simp only [concatMap, List.mem_append, ih, List.mem_cons]
    constructor
    · rintro (hb | ⟨a', ha', hb⟩)
      · exact ⟨a, Or.inl rfl, hb⟩
      · exact ⟨a', Or.inr ha', hb⟩
    · rintro ⟨a', (rfl | ha'), hb⟩
      · exact Or.inl hb
      · exact Or.inr ⟨a', ha', hb⟩

/-- C1: in the repo-to-repo commit drive, the per-path callback's action
is determined exactly by (resurrection, is_move, path): a resurrection
move performs neither an add nor a delete; a resurrection copy performs
an ADD; a non-resurrection move performs a DELETE at the pair's src_path
and an ADD at its dst_path; a non-resurrection copy performs an ADD.
Every ADD opens add_file or add_directory according to src_kind with
copyfrom (src_url, src_revnum), and attaches the mergeinfo property
exactly when the computed mergeinfo is non-empty (the serialized
mergeinfo being present exactly when the computed mapping is
non-empty). -/
theorem c1_path_driver_callback_actions (valid : List String → Bool)
    (is_move : Bool) (info : PDInfo) (path : List String)
    (hv : valid path = true) :
    (info.resurrection = true → is_move = true →
       path_driver_cb_func valid is_move info path = Except.ok [])
  ∧ (info.resurrection = true → is_move = false →
       path_driver_cb_func valid is_move info path =
         Except.ok (addActions info path))
  ∧ (info.resurrection = false → is_move = true → info.src_path = path →
       path_driver_cb_func valid is_move info path =
         Except.ok [EditorAction.deleteEntry path invalidRevnum])
  ∧ (info.resurrection = false → is_move = true → info.dst_path = path →
       info.src_path ≠ info.dst_path →
       path_driver_cb_func valid is_move info path =
         Except.ok (addActions info path))
  ∧ (info.resurrection = false → is_move = false →
       path_driver_cb_func valid is_move info path =
         Except.ok (addActions info path))
  ∧ (addedWithCopyfrom (addActions info path) =
       some (info.src_url, info.src_revnum))
  ∧ (opensFileBaton (addActions info path) = true ↔
       info.src_kind = NodeKind.file)
  ∧ (opensDirBaton (addActions info path) = true ↔
       info.src_kind ≠ NodeKind.file)
  ∧ (hasMergeinfoProp (addActions info path) = true ↔
       info.mergeinfo ≠ Option.none)
  ∧ (∀ m : Mergeinfo,
       (mergeinfoToString m).isSome = true ↔ m ≠ ([] : Mergeinfo)) := by
  refine ⟨?_, ?_, ?_, ?_, ?_, ?_, ?_, ?_, ?_, ?_⟩
  · intro h1 h2
    simp [path_driver_cb_func, h1, h2]
  · intro h1 h2
    simp [path_driver_cb_func, h1, h2, hv]
  · intro h1 h2 h3
    simp [path_driver_cb_func, h1, h2, h3]
  · intro h1 h2 h3 h4
    have hne : ¬(info.src_path = path) := fun hh => h4 (hh.trans h3.symm)
    simp [path_driver_cb_func, h1, h2, hne, hv]
  · intro h1 h2
    simp [path_driver_cb_func, h1, h2, hv]
  · cases hk : info.src_kind <;>
      cases hm : info.mergeinfo <;>
        simp [addActions, addedWithCopyfrom, hk, hm]
  · cases hk : info.src_kind <;>
      cases hm : info.mergeinfo <;>
        simp [addActions, opensFileBaton, hk, hm]
  · cases hk : info.src_kind <;>
      cases hm : info.mergeinfo <;>
        simp [addActions, opensDirBaton, opensFileBaton, hk, hm]
  · cases hk : info.src_kind <;>
      cases hm : info.mergeinfo <;>
        simp [addActions, hasMergeinfoProp, mergeInfoPropName, hk, hm]
  · intro m
    by_cases hm : m = ([] : Mergeinfo) <;> simp [mergeinfoToString, hm]

/-- The final `srcs_are_urls` flag of `moveOrPromote`: the incoming flag
unless the WC-to-repository promotion fired, in which case it is
raised to true. -/
theorem moveOrPromote_flag (env : ClientEnv) (pairs : List CopyPair)
    (srcs_are_urls dst_is_url is_move : Bool) (ps : List CopyPair)
    (flag : Bool)
    (h : moveOrPromote env pairs srcs_are_urls dst_is_url is_move =
      Except.ok (ps, flag)) :
    flag = (srcs_are_urls ||
      (!is_move && !srcs_are_urls &&
        pairs.any (fun p => p.src_op_revision.opNeedsRepo))) := by
  unfold moveOrPromote at h
  cases is_move with
  | true =>
    by_cases hb : srcs_are_urls = dst_is_url
    · rw [if_pos rfl, if_pos hb] at h
      cases hms : checkMoveSelf pairs with
      | error e => rw [hms] at h; simp [bind, Except.bind] at h
      | ok u =>
        rw [hms] at h
        simp only [bind, Except.bind, Except.ok.injEq, Prod.mk.injEq] at h
        simp [← h.2]
    · rw [if_pos rfl, if_neg hb] at h
      simp at h
  | false =>
    rw [if_neg (by simp)] at h
    by_cases hc : (!srcs_are_urls &&
        pairs.any (fun p => p.src_op_revision.opNeedsRepo)) = true
    · rw [if_pos hc] at h
      cases hpp : promotePairs env pairs with
      | error e => rw [hpp] at h; simp [bind, Except.bind] at h
      | ok pairs' =>
        rw [hpp] at h
        simp only [bind, Except.bind, Except.ok.injEq, Prod.mk.injEq] at h
        simp only [Bool.and_eq_true] at hc
        have hs : srcs_are_urls = false := by
          cases srcs_are_urls
          · rfl
          · simp at hc
        simp [← h.2, hs, hc.2]
    · rw [if_neg hc] at h
      simp only [Except.ok.injEq, Prod.mk.injEq] at h
      cases hs : srcs_are_urls with
      | true => simp [← h.2, hs]
      | false =>
        have : pairs.any (fun p => p.src_op_revision.opNeedsRepo) = false := by
          cases hany : pairs.any (fun p => p.src_op_revision.opNeedsRepo) with
          | false => rfl
          | true => exact absurd (by simp [hs, hany]) hc
        simp [← h.2, hs, this]

/-- Inversion of a successful `setupCopyPairs`: the result came from
`moveOrPromote` over the built pairs. -/
theorem setupCopyPairs_ok (env : ClientEnv) (s0 : CopySource)
    (rest : List CopySource) (dst : UPath) (is_move : Bool)
    (ps : List CopyPair) (flag : Bool)
    (h : setupCopyPairs env (s0 :: rest) dst is_move =
      Except.ok (ps, flag)) :
    ∃ pairs0, buildPairs (s0 :: rest) dst s0.path.isUrl = Except.ok pairs0 ∧
      moveOrPromote env pairs0 s0.path.isUrl dst.isUrl is_move =
        Except.ok (ps, flag) := by
  unfold setupCopyPairs at h
  simp only [bind, Except.bind] at h
  split at h
  · simp at h
  · split at h
    · simp at h
    · rename_i pairs0 hb
      split at h
      · simp at h
      · exact ⟨pairs0, hb, h⟩

/-- C2 (amended): every call to the copy/move setup that passes the
pre-dispatch validation dispatches to exactly one of the four handlers
(none when validation fails), and the handler chosen is a pure function
of the flag pair (srcs_are_urls, dst_is_url) as it stands at dispatch
time; that flag pair equals the one determined from the user input
except that a WC copy (not a move) with some operative revision outside
unspecified/working has srcs_are_urls switched to true by the WC-to-repo
promotion. -/
theorem c2_dispatch_amended (env : ClientEnv) (s0 : CopySource)
    (rest : List CopySource) (dst : UPath) (is_move force : Bool) :
    ((setup_copy env (s0 :: rest) dst is_move force).2.length ≤ 1)
  ∧ (∀ e, setupCopyPairs env (s0 :: rest) dst is_move = Except.error e →
       (setup_copy env (s0 :: rest) dst is_move force).2 = [])
  ∧ (∀ ps flag,
       setupCopyPairs env (s0 :: rest) dst is_move = Except.ok (ps, flag) →
       (setup_copy env (s0 :: rest) dst is_move force).2 =
         [dispatchHandler flag dst.isUrl]
       ∧ ∃ pairs0,
           buildPairs (s0 :: rest) dst s0.path.isUrl = Except.ok pairs0
           ∧ flag = (s0.path.isUrl ||
               (!is_move && !s0.path.isUrl &&
                 pairs0.any (fun p => p.src_op_revision.opNeedsRepo)))) := by
  refine ⟨?_, ?_, ?_⟩
  · unfold setup_copy
    cases h : setupCopyPairs env (s0 :: rest) dst is_move with
    | error e => simp
    | ok pr => simp
  · intro e he
    unfold setup_copy
    rw [he]
  · intro ps flag hok
    constructor
    · unfold setup_copy
      rw [hok]
    · rcases setupCopyPairs_ok env s0 rest dst is_move ps flag hok with
        ⟨pairs0, hb, hm⟩
      exact ⟨pairs0, hb,
        moveOrPromote_flag env pairs0 s0.path.isUrl dst.isUrl is_move ps flag hm⟩

/-- Counterexample for C2 as stated: two calls with identical user-input
flag pairs (local source, local destination) dispatch to different
handlers, because one of them has a numeric operative revision and is
promoted to a repository source. -/
theorem c2_dispatch_counterexample :
    (setup_copy c2env [c2srcNumber] c2dst false true).2 = [Handler.reposToWc]
  ∧ (setup_copy c2env [c2srcWorking] c2dst false true).2 = [Handler.wcToWc]
  ∧ c2srcNumber.path = c2srcWorking.path
  ∧ c2srcNumber.path.isUrl = false ∧ c2dst.isUrl = false := by
  refine ⟨rfl, rfl, rfl, rfl, rfl⟩

/-- Witness for C2: the amended theorem applied to the concrete
working-revision call. -/
theorem c2_dispatch_amended_witness :
    (setup_copy c2env [c2srcWorking] c2dst false true).2 =
      [dispatchHandler false c2dst.isUrl] :=
  ((c2_dispatch_amended c2env c2srcWorking [] c2dst false true).2.2
    [⟨⟨false, ["wc", "a"]⟩, Rev.working, Rev.working, c2dst⟩] false rfl).1

/-- The pair loop of `do_wc_to_wc_copies` stops at the first failing
copy: with no cancellation and the first failure at offset `j`, the loop
exits through the `break` having attempted `j + 1` copies. -/
theorem wcCopiesLoop_first_fail (env : WcCopiesEnv)
    (hc : ∀ k, env.cancelAt k = Option.none) :
    ∀ (n j i : Nat) (e : SvnErr), j < n →
      (∀ k, k < j → env.wcCopyErr (i + k) = Option.none) →
      env.wcCopyErr (i + j) = some e →
      wcCopiesLoop env i n = WcLoopExit.copyFailed e (j + 1) := by
  intro n
  induction n with
  | zero => intro j i e hj; exact absurd hj (Nat.not_lt_zero j)
  | succ m ih =>
    intro j i e hj hok hfail
    cases j with
    | zero =>
      simp only [Nat.add_zero] at hfail
      simp [wcCopiesLoop, hc i, hfail]
    | succ j' =>
      have h0 : env.wcCopyErr i = Option.none := by
        have := hok 0 (Nat.succ_pos j')
        simpa using this
      have hrec : wcCopiesLoop env (i + 1) m = WcLoopExit.copyFailed e (j' + 1) := by
        apply ih j' (i + 1) e (Nat.lt_of_succ_lt_succ hj)
        · intro k hk
          have := hok (k + 1) (Nat.succ_lt_succ hk)
          simpa [Nat.add_assoc, Nat.add_comm 1 k] using this
        · have h1 : i + (j' + 1) = i + 1 + j' := by omega
          rw [← h1]; exact hfail
      simp [wcCopiesLoop, hc i, h0, hrec]

/-- C3 (amended): in the WC-to-WC batch copy, on any input whose first
per-pair copy failure is at pair `j`, the loop stops there (exactly
`j + 1` copies are attempted) and the function returns that error - but
the single admin lock opened on the common destination parent is still
held at that return (the explicit `svn_wc_adm_close` runs only on the
success path; the error path leaves release to pool cleanup outside the
function). -/
theorem c3_first_failure_amended (env : WcCopiesEnv)
    (pairs : List CopyPair) (j : Nat) (e : SvnErr)
    (hopen : env.admOpenErr (wcCopiesDstParent pairs) = Option.none)
    (hc : ∀ k, env.cancelAt k = Option.none)
    (hok : ∀ k, k < j → env.wcCopyErr k = Option.none)
    (hfail : env.wcCopyErr j = some e)
    (hj : j < pairs.length) :
    do_wc_to_wc_copies env pairs =
      ⟨some e, [wcCopiesDstParent pairs], j + 1⟩
    ∧ [wcCopiesDstParent pairs] ≠ ([] : List UPath) := by
  constructor
  · have hloop : wcCopiesLoop env 0 pairs.length =
        WcLoopExit.copyFailed e (j + 1) := by
      apply wcCopiesLoop_first_fail env hc pairs.length j 0 e hj
      · intro k hk; simpa using hok k hk
      · simpa using hfail
    unfold do_wc_to_wc_copies
    simp [hopen, hloop]
  · simp

/-- Counterexample for C3 as stated: a concrete one-pair batch whose
copy fails; the function returns the copy error while the admin lock on
the destination parent is still held, so the error is not returned
"after releasing" the lock. -/
theorem c3_lock_counterexample :
    (do_wc_to_wc_copies c3env c3pairs).result = some c3err
  ∧ (do_wc_to_wc_copies c3env c3pairs).locksHeld = [⟨false, ["wc"]⟩]
  ∧ (do_wc_to_wc_copies c3env c3pairs).locksHeld ≠ ([] : List UPath) := by
  refine ⟨rfl, rfl, by decide⟩

/-- Witness for C3: the amended theorem applied to the concrete failing
batch. -/
theorem c3_first_failure_amended_witness :
    do_wc_to_wc_copies c3env c3pairs =
      ⟨some c3err, [wcCopiesDstParent c3pairs], 1⟩ :=
  (c3_first_failure_amended c3env c3pairs 0 c3err rfl (fun _ => rfl)
    (fun k hk => absurd hk (Nat.not_lt_zero k)) rfl (by decide)).1

/-- C4: in the repo-to-repo handler, whenever opening the RA session
fails with the illegal-URL error and the session anchor top_url (the
computed common ancestor, possibly raised by the resurrection pass) is
empty, the call returns an unsupported_feature error whose message says
the source and destination appear not to be in the same repository; any
other session-open failure is propagated unchanged. -/
theorem c4_cross_repository_error (env : RREnv) (p0 : CopyPair)
    (rest : List CopyPair) (is_move : Bool) (tu : UPath) (rs : List Bool)
    (e : SvnErr)
    (hmark : rrMarkResurrections1 (p0 :: rest)
        (getCopyPairAncestorsCommon (p0 :: rest)) = (tu, rs))
    (hopen : env.openRaErr tu = some e) :
    (e.code = ErrCode.raIllegalUrl ∧ tu.segs = [] →
       repos_to_repos_copy env (p0 :: rest) is_move =
         Except.error (svnError ErrCode.unsupportedFeature
           (ErrMsg.notSameRepository p0.src p0.dst)))
  ∧ (¬(e.code = ErrCode.raIllegalUrl ∧ tu.segs = []) →
       repos_to_repos_copy env (p0 :: rest) is_move = Except.error e) := by
  have hm1 : rrPrepare env (p0 :: rest) is_move =
      (if e.code = ErrCode.raIllegalUrl ∧ tu.segs = [] then
         Except.error (svnError ErrCode.unsupportedFeature
           (ErrMsg.notSameRepository p0.src p0.dst))
       else Except.error e) := by
    unfold rrPrepare
    simp only [hmark, hopen, List.headD_cons]
  constructor
  · intro hcond
    unfold repos_to_repos_copy
    simp only [bind, Except.bind, hm1, if_pos hcond]
  · intro hcond
    unfold repos_to_repos_copy
    simp only [bind, Except.bind, hm1, if_neg hcond]

/-- Witness for C4: two URLs in different repositories share the empty
ancestor, the session open fails with the illegal-URL error, and the
call reports that source and destination are not in the same
repository. -/
theorem c4_cross_repository_error_witness :
    repos_to_repos_copy c4env [c4pair] false =
      Except.error (svnError ErrCode.unsupportedFeature
        (ErrMsg.notSameRepository c4pair.src c4pair.dst)) :=
  (c4_cross_repository_error c4env c4pair [] false ⟨true, []⟩ [false]
    (svnError ErrCode.raIllegalUrl ErrMsg.noMsg) rfl rfl).1 ⟨rfl, rfl⟩

/-- Occurrence count in the `paths[]` list: one occurrence per pair
whose dst_path equals the query plus one per non-resurrection move pair
whose src_path equals it. -/
theorem rrPathsOfInfos_occ (is_move : Bool) (infos : List PDInfo)
    (q : List String) :
    occ q (rrPathsOfInfos is_move infos) =
      countIf (fun i => decide (i.dst_path = q)) infos +
      countIf (fun i => (is_move && !i.resurrection) && decide (i.src_path = q))
        infos := by
  induction infos with
  | nil => rfl
  | cons i l ih =>
    simp only [rrPathsOfInfos, concatMap] at *
    rw [occ_append, ih]
    by_cases hc : (is_move && !i.resurrection) = true
    · by_cases hd : i.dst_path = q <;> by_cases hs : i.src_path = q <;>
        simp [occ, countIf, hc, hd, hs] <;> omega
    · by_cases hd : i.dst_path = q <;>
        (simp [occ, countIf, hc, hd]; try omega)

/-- Every pair's dst_path is in the `paths[]` list. -/
theorem dst_mem_rrPaths (is_move : Bool) (infos : List PDInfo)
    (i : PDInfo) (hi : i ∈ infos) :
    i.dst_path ∈ rrPathsOfInfos is_move infos := by
  unfold rrPathsOfInfos
  exact mem_concatMap.mpr ⟨i, hi, List.mem_cons_self _ _⟩

/-- Every non-resurrection move pair's src_path is in the `paths[]`
list. -/
theorem src_mem_rrPaths (is_move : Bool) (infos : List PDInfo)
    (i : PDInfo) (hi : i ∈ infos) (hmv : is_move = true)
    (hres : i.resurrection = false) :
    i.src_path ∈ rrPathsOfInfos is_move infos := by
  unfold rrPathsOfInfos
  refine mem_concatMap.mpr ⟨i, hi, ?_⟩
  simp [hmv, hres]

/-- C5 (amended): for every repo-to-repo call that reaches the editor
drive, the flat paths[] list handed to the path-driver contains, for
each path, one occurrence per pair whose dst_path equals it plus one
per non-resurrection move pair whose src_path equals it; in particular,
when the list is duplicate-free, each pair's dst_path occurs exactly
once and the src_path of each non-resurrection move pair occurs exactly
once.  (As stated the claim fails: two pairs may share a dst_path, which
then occurs twice.) -/
theorem c5_paths_amended (env : RREnv) (pairs : List CopyPair)
    (is_move : Bool) (top_url : UPath) (infos0 : List PDInfo) (msg : String)
    (hprep : rrPrepare env pairs is_move = Except.ok (top_url, infos0))
    (hmsg : rrLogMessage env top_url is_move infos0 = some msg) :
    (∀ r, rrDrive env is_move
        (rrActionHash env.logMsgFunc.isSome is_move (rrFillMergeinfo env infos0))
        (rrPathsOfInfos is_move (rrFillMergeinfo env infos0)) = Except.ok r →
      repos_to_repos_copy env pairs is_move =
        Except.ok (RROutcome.committed
          (rrPathsOfInfos is_move (rrFillMergeinfo env infos0)) r))
  ∧ (∀ q, occ q (rrPathsOfInfos is_move (rrFillMergeinfo env infos0)) =
        countIf (fun i => decide (i.dst_path = q)) (rrFillMergeinfo env infos0)
        + countIf (fun i =>
            (is_move && !i.resurrection) && decide (i.src_path = q))
            (rrFillMergeinfo env infos0))
  ∧ ((rrPathsOfInfos is_move (rrFillMergeinfo env infos0)).Nodup →
       ∀ i ∈ rrFillMergeinfo env infos0,
         occ i.dst_path (rrPathsOfInfos is_move (rrFillMergeinfo env infos0)) = 1
         ∧ (is_move = true → i.resurrection = false →
             occ i.src_path
               (rrPathsOfInfos is_move (rrFillMergeinfo env infos0)) = 1)) := by
  refine ⟨?_, ?_, ?_⟩
  · intro r hdr
    unfold repos_to_repos_copy
    simp only [bind, Except.bind, hprep]
    rw [hmsg]
    simp only [hdr]
  · intro q
    exact rrPathsOfInfos_occ is_move (rrFillMergeinfo env infos0) q
  · intro hnd i hi
    constructor
    · exact occ_nodup_mem hnd (dst_mem_rrPaths is_move _ i hi)
    · intro hmv hres
      exact occ_nodup_mem hnd (src_mem_rrPaths is_move _ i hi hmv hres)

/-- Counterexample for C5 as stated: two sources with the same basename
copied into one directory produce two pairs with the same dst_path; the
call reaches the editor drive and the shared dst_path occurs twice in
the paths[] list, not exactly once. -/
theorem c5_paths_counterexample :
    (rrPathsOfOutcome (repos_to_repos_copy c5env c5pairs false)).map
        (fun ps => occ (["d", "x"] : List String) ps) = some 2
  ∧ rrPrepDstPathsOf (rrPrepare c5env c5pairs false) =
      some [["d", "x"], ["d", "x"]] := by
  exact ⟨rfl, rfl⟩

/-- Witness for C5: the amended theorem applied to the concrete
duplicate-destination run; the count formula evaluates to two
occurrences of the shared destination path. -/
theorem c5_paths_amended_witness :
    occ (["d", "x"] : List String)
      (rrPathsOfInfos false (rrFillMergeinfo c5env c5infos0)) =
      countIf (fun i => decide (i.dst_path = ["d", "x"]))
        (rrFillMergeinfo c5env c5infos0)
      + countIf (fun i =>
          (false && !i.resurrection) && decide (i.src_path = ["d", "x"]))
          (rrFillMergeinfo c5env c5infos0) :=
  (c5_paths_amended c5env c5pairs false ⟨true, ["svn:", "r"]⟩ c5infos0 "m"
    rfl rfl).2.1 ["d", "x"]

/-- C7: for the public entry points copy(sources, dst, copy_as_child)
and move(sources, dst, force, move_as_child): when the as-child flag is
set, there is exactly one source, and the first attempt fails with
entry_exists or fs_already_exists, the operation is retried exactly once
with dst replaced by dst joined with basename(source path), and the
first error is cleared (the result is that of the second attempt alone);
a call with more than one source and the flag unset fails up front with
client_multiple_sources_disallowed, no attempt being made. -/
theorem c7_as_child_retry (env : ClientEnv) :
    (∀ (sources : List CopySource) (dst : UPath), 1 < sources.length →
        svn_client_copy4 env sources dst false =
          (Except.error (svnError ErrCode.clientMultipleSourcesDisallowed
             ErrMsg.noMsg), []))
  ∧ (∀ (src_paths : List UPath) (dst : UPath) (force : Bool),
        1 < src_paths.length →
        svn_client_move5 env src_paths dst force false =
          (Except.error (svnError ErrCode.clientMultipleSourcesDisallowed
             ErrMsg.noMsg), []))
  ∧ (∀ (s0 : CopySource) (dst : UPath) (e : SvnErr),
        (setup_copy env [s0] dst false true).1 = Except.error e →
        (e.code = ErrCode.entryExists ∨ e.code = ErrCode.fsAlreadyExists) →
        svn_client_copy4 env [s0] dst true =
          ((setup_copy env [s0] (dst.join s0.path.basename) false true).1,
           [dst, dst.join s0.path.basename]))
  ∧ (∀ (p0 dst : UPath) (force : Bool) (e : SvnErr),
        (setup_copy env (move5Sources [p0]) dst true force).1 =
          Except.error e →
        (e.code = ErrCode.entryExists ∨ e.code = ErrCode.fsAlreadyExists) →
        svn_client_move5 env [p0] dst force true =
          ((setup_copy env (move5Sources [p0]) (dst.join p0.basename) true
              force).1,
           [dst, dst.join p0.basename])) := by
  refine ⟨?_, ?_, ?_, ?_⟩
  · intro sources dst h
    unfold svn_client_copy4
    rw [if_pos ⟨h, rfl⟩]
  · intro src_paths dst force h
    unfold svn_client_move5
    rw [if_pos ⟨h, rfl⟩]
  · intro s0 dst e he hcode
    unfold svn_client_copy4
    rw [if_neg (by simp)]
    simp only [he]
    rw [if_pos (by simp [hcode])]
    rfl
  · intro p0 dst force e he hcode
    unfold svn_client_move5
    rw [if_neg (by simp)]
    simp only [he]
    rw [if_pos (by simp [hcode])]
    rfl

/-- Witness for C7: with a handler reporting an existing destination
entry, the as-child copy retries once against dst/basename(src). -/
theorem c7_as_child_retry_witness :
    svn_client_copy4 c7env [c7src] c7dst true =
      ((setup_copy c7env [c7src] (c7dst.join c7src.path.basename) false
          true).1,
       [c7dst, c7dst.join c7src.path.basename]) :=
  (c7_as_child_retry c7env).2.2.1 c7src c7dst
    (svnError ErrCode.entryExists (ErrMsg.pathAlreadyExists default)) rfl
    (Or.inl rfl)

/-- Adding under one key preserves (and possibly extends) the ranges
recorded under any key. -/
theorem lookupMergeinfo_mergeinfoAdd (m : Mergeinfo) (k key : List String)
    (rs0 rs : List MergeRange) (h : lookupMergeinfo m k = some rs0) :
    ∃ rs', lookupMergeinfo (mergeinfoAdd m key rs) k = some rs'
      ∧ ∀ r ∈ rs0, r ∈ rs' := by
  induction m with
  | nil => cases h
  | cons kv rest ih =>
    obtain ⟨k1, v1⟩ := kv
    by_cases hk : k1 = k
    · subst hk
      have hrs0 : v1 = rs0 := by
        simpa [lookupMergeinfo] using h
      subst hrs0
      by_cases hkey : k1 = key
      · subst hkey
        refine ⟨v1 ++ rs, ?_, ?_⟩
        · simp [mergeinfoAdd, lookupMergeinfo]
        · intro r hr
          simp [List.mem_append, hr]
      · refine ⟨v1, ?_, fun r hr => hr⟩
        simp [mergeinfoAdd, hkey, lookupMergeinfo]
    · have hrest : lookupMergeinfo rest k = some rs0 := by
        simpa [lookupMergeinfo, hk] using h
      by_cases hkey : k1 = key
      · subst hkey
        refine ⟨rs0, ?_, fun r hr => hr⟩
        simp [mergeinfoAdd, lookupMergeinfo, hk, hrest]
      · rcases ih hrest with ⟨rs', h', hs'⟩
        refine ⟨rs', ?_, hs'⟩
        simp [mergeinfoAdd, hkey, lookupMergeinfo, hk, h']

/-- Folding additions over a mergeinfo mapping preserves (and possibly
extends) the ranges recorded under any key. -/
theorem lookupMergeinfo_foldl (b : List (List String × List MergeRange)) :
    ∀ (a : Mergeinfo) (k : List String) (rs0 : List MergeRange),
      lookupMergeinfo a k = some rs0 →
      ∃ rs', lookupMergeinfo
          (b.foldl (fun acc kv => mergeinfoAdd acc kv.1 kv.2) a) k = some rs'
        ∧ ∀ r ∈ rs0, r ∈ rs' := by
  induction b with
  | nil => intro a k rs0 h; exact ⟨rs0, h, fun r hr => hr⟩
  | cons kv rest ih =>
    intro a k rs0 h
    rcases lookupMergeinfo_mergeinfoAdd a k kv.1 rs0 kv.2 h with ⟨rs1, h1, hs1⟩
    rcases ih (mergeinfoAdd a kv.1 kv.2) k rs1 h1 with ⟨rs', h', hs'⟩
    exact ⟨rs', h', fun r hr => hs' r (hs1 r hr)⟩

/-- C8: for every copy whose source node exists back to some oldest
revision, the mergeinfo computed for the destination is the union of
the implied mergeinfo of the source - the repository-root-relative
source path mapped to the single range [oldest, src_revnum] - with any
explicit mergeinfo already recorded on the source node; in particular
the computed mapping records the implied range under the source
path. -/
theorem c8_target_merge_info (env : MergeEnv) (src : UPath)
    (rel : List String) (rev oldest : Int)
    (hold : env.oldestRevAtPath rel rev = some oldest) :
    (calculate_target_merge_info env src rel rev =
      (match env.reposMergeInfo (env.pathRelativeToRoot src) rev with
       | some m =>
           mergeinfoMerge [(env.pathRelativeToRoot src,
             [MergeRange.mk oldest rev])] m
       | Option.none =>
           [(env.pathRelativeToRoot src, [MergeRange.mk oldest rev])]))
  ∧ (∃ rs, lookupMergeinfo (calculate_target_merge_info env src rel rev)
        (env.pathRelativeToRoot src) = some rs
      ∧ MergeRange.mk oldest rev ∈ rs) := by
  have himp : get_implied_merge_info env rel (env.pathRelativeToRoot src) rev =
      [(env.pathRelativeToRoot src, [MergeRange.mk oldest rev])] := by
    simp [get_implied_merge_info, hold]
  constructor
  · simp only [calculate_target_merge_info]
    rw [himp]
  · simp only [calculate_target_merge_info]
    rw [himp]
    cases hrm : env.reposMergeInfo (env.pathRelativeToRoot src) rev with
    | none =>
      refine ⟨[MergeRange.mk oldest rev], ?_, by simp⟩
      simp [lookupMergeinfo]
    | some m =>
      have hbase : lookupMergeinfo
          [(env.pathRelativeToRoot src, [MergeRange.mk oldest rev])]
          (env.pathRelativeToRoot src) = some [MergeRange.mk oldest rev] := by
        simp [lookupMergeinfo]
      rcases lookupMergeinfo_foldl m _ _ _ hbase with ⟨rs', h', hs'⟩
      exact ⟨rs', h', hs' _ (by simp)⟩

/-- Witness for C8: a concrete source with oldest revision 3 at source
revision 9 and an explicit mergeinfo on the source node. -/
theorem c8_target_merge_info_witness :
    calculate_target_merge_info c8env ⟨true, ["r", "s"]⟩ ["s"] 9 =
      mergeinfoMerge [((["s"] : List String), [MergeRange.mk 3 9])]
        [((["other"] : List String), [MergeRange.mk 1 2])] :=
  (c8_target_merge_info c8env ⟨true, ["r", "s"]⟩ ["s"] 9 3 rfl).1

/-- With `same_repositories = false` the per-pair worker never passes a
copyfrom to any WC add. -/
theorem rw_single_no_copyfrom (env : RWEnv) (pair : RWPair) (a : WcAction)
    (ha : a ∈ (repos_to_wc_copy_single env false pair).2) :
    actionCopyfrom a = Option.none := by
  unfold repos_to_wc_copy_single at ha
  repeat' (first | split at ha | dsimp only at ha)
  all_goals
    first
    | (simp_all [actionCopyfrom]; done)
    | (fin_cases ha <;> rfl)

/-- With `same_repositories = false` the pair loop never passes a
copyfrom to any WC add. -/
theorem rwLoop_no_copyfrom (env : RWEnv) :
    ∀ (ps : List RWPair) (i : Nat) (a : WcAction),
      a ∈ (rwLoop env false ps i).2 → actionCopyfrom a = Option.none := by
  intro ps
  induction ps with
  | nil => intro i a ha; simp [rwLoop] at ha
  | cons p rest ih =>
    intro i a ha
    unfold rwLoop at ha
    cases hc : env.cancelAt i with
    | some e => rw [hc] at ha; simp at ha
    | none =>
      rw [hc] at ha
      cases hs : repos_to_wc_copy_single env false p with
      | mk r tr =>
        rw [hs] at ha
        cases r with
        | error e =>
          simp at ha
          exact rw_single_no_copyfrom env p a (by rw [hs]; exact ha)
        | ok u =>
          simp at ha
          rcases ha with h1 | h2
          · exact rw_single_no_copyfrom env p a (by rw [hs]; exact h1)
          · exact ih (i + 1) a h2

/-- C9 (amended): same_repositories is true exactly when both the RA
session's UUID and the UUID of the destination's WC parent are obtained
and equal; a lookup failing with the no-repository-UUID error, or
succeeding without a UUID, makes the repositories count as different,
while any other lookup failure aborts the call with that error.
Whenever same_repositories is false, no copyfrom URL and no copyfrom
revision are passed to any WC add performed for a pair. -/
theorem c9_same_repositories_amended :
    (∀ s d : Except SvnErr (Option String),
        sameRepositoriesOf s d = Except.ok true ↔
          ∃ u, s = Except.ok (some u) ∧ d = Except.ok (some u))
  ∧ (∀ (e : SvnErr) (d : Except SvnErr (Option String)) (r : Option String),
        e.code = ErrCode.raNoReposUuid → d = Except.ok r →
        sameRepositoriesOf (Except.error e) d = Except.ok false)
  ∧ (∀ (d : Except SvnErr (Option String)) (e : SvnErr),
        e.code ≠ ErrCode.raNoReposUuid →
        sameRepositoriesOf (Except.error e) d = Except.error e)
  ∧ (∀ (u : Option String) (e : SvnErr),
        e.code ≠ ErrCode.raNoReposUuid →
        sameRepositoriesOf (Except.ok u) (Except.error e) = Except.error e)
  ∧ (∀ u v : Option String, u = Option.none ∨ v = Option.none →
        sameRepositoriesOf (Except.ok u) (Except.ok v) = Except.ok false)
  ∧ (∀ (env : RWEnv) (pair : RWPair) (a : WcAction),
        a ∈ (repos_to_wc_copy_single env false pair).2 →
        actionCopyfrom a = Option.none)
  ∧ (∀ (env : RWEnv) (pairs : List CopyPair) (prep : RWPrep),
        repos_to_wc_prepare env pairs = Except.ok prep →
        sameRepositoriesOf env.raUuid
          (env.uuidFromPath (rwUuidParent (decide (pairs.length = 1))
            prep.top_dst_path)) = Except.ok false →
        ∀ a ∈ (repos_to_wc_copy env pairs).2,
          actionCopyfrom a = Option.none) := by
  refine ⟨?_, ?_, ?_, ?_, ?_, ?_, ?_⟩
  · intro s d
    cases s with
    | error se =>
      constructor
      · intro h
        exfalso
        simp only [sameRepositoriesOf] at h
        by_cases h1 : se.code ≠ ErrCode.raNoReposUuid
        · rw [if_pos h1] at h; cases h
        · rw [if_neg h1] at h
          cases d with
          | error de =>
            dsimp only at h
            by_cases h2 : de.code ≠ ErrCode.raNoReposUuid
            · rw [if_pos h2] at h; cases h
            · rw [if_neg h2] at h; simp at h
          | ok du => simp at h
      · rintro ⟨u, hu, _⟩; cases hu
    | ok su =>
      cases d with
      | error de =>
        constructor
        · intro h
          exfalso
          simp only [sameRepositoriesOf] at h
          by_cases h2 : de.code ≠ ErrCode.raNoReposUuid
          · rw [if_pos h2] at h; cases h
          · rw [if_neg h2] at h; simp at h
        · rintro ⟨u, _, hd⟩; cases hd
      | ok du =>
        constructor
        · intro h
          simp only [sameRepositoriesOf] at h
          cases su with
          | none => cases du <;> simp at h
          | some u =>
            cases du with
            | none => simp at h
            | some v =>
              simp at h
              exact ⟨u, rfl, by rw [h]⟩
        · rintro ⟨u, hu, hd⟩
          injection hu with hu
          injection hd with hd
          subst hu; subst hd
          simp [sameRepositoriesOf]
  · intro e d r he hd
    subst hd
    simp only [sameRepositoriesOf]
    rw [if_neg (by simp [he])]
  · intro d e he
    simp only [sameRepositoriesOf]
    cases d with
    | error de => rw [if_pos he]
    | ok du => rw [if_pos he]
  · intro u e he
    simp only [sameRepositoriesOf]
    rw [if_pos he]
  · intro u v huv
    rcases huv with rfl | rfl
    · simp [sameRepositoriesOf]
    · cases u <;> simp [sameRepositoriesOf]
  · exact rw_single_no_copyfrom
  · intro env pairs prep hprep hsame a ha
    unfold repos_to_wc_copy at ha
    rw [hprep] at ha
    simp only [hsame] at ha
    cases hl : rwLoop env false prep.rwpairs 0 with
    | mk r tr =>
      rw [hl] at ha
      cases r with
      | error e =>
        simp at ha
        exact rwLoop_no_copyfrom env prep.rwpairs 0 a (by rw [hl]; exact ha)
      | ok u =>
        cases hce : env.admCloseErr with
        | some e =>
          rw [hce] at ha
          simp at ha
          exact rwLoop_no_copyfrom env prep.rwpairs 0 a (by rw [hl]; exact ha)
        | none =>
          rw [hce] at ha
          simp at ha
          exact rwLoop_no_copyfrom env prep.rwpairs 0 a (by rw [hl]; exact ha)

/-- Counterexample for C9 as stated: a UUID lookup failing with a code
other than the no-repository-UUID code does not make the call assume
different repositories - the failure is returned as the call's error
instead. -/
theorem c9_uuid_counterexample :
    sameRepositoriesOf (Except.error c9errConn) (Except.ok (some "u")) =
      Except.error c9errConn
  ∧ c9errConn.code ≠ ErrCode.raNoReposUuid
  ∧ sameRepositoriesOf (Except.error c9errConn) (Except.ok (some "u")) ≠
      Except.ok false := by
  refine ⟨rfl, by decide, fun h => Except.noConfusion h⟩

/-- Witness for C9: a UUID pair with a missing destination UUID counts
as different repositories. -/
theorem c9_same_repositories_amended_witness :
    sameRepositoriesOf (Except.ok (some "u")) (Except.ok Option.none) =
      Except.ok false :=
  c9_same_repositories_amended.2.2.2.2.1 (some "u") Option.none (Or.inr rfl)

/-- C10: the oldest single-source move entry point svn_client_move
rejects, with an unsupported_feature error and before performing any
work (no setup attempt is made), every src_revision whose kind is
neither unspecified nor head; the newer move entry points take no caller
revision at all and build every source with the head revision. -/
theorem c10_move_revision_guard :
    (∀ (env : ClientEnv) (src dst : UPath) (rev : Rev) (force : Bool),
        rev.isUnspecifiedOrHead = false →
        svn_client_move env src rev dst force =
          (Except.error (svnError ErrCode.unsupportedFeature
             ErrMsg.cannotSpecifyRevisionsWithMove), []))
  ∧ (∀ (src_paths : List UPath) (s : CopySource),
        s ∈ move5Sources src_paths →
        s.revision = Rev.head ∧ s.peg_revision = Rev.head)
  ∧ (∀ (env : ClientEnv) (src dst : UPath) (rev : Rev) (force : Bool),
        rev.isUnspecifiedOrHead = true →
        svn_client_move env src rev dst force =
          ((setup_copy env [⟨src, rev, rev⟩] dst true force).1, [dst])) := by
  refine ⟨?_, ?_, ?_⟩
  · intro env src dst rev force h
    simp [svn_client_move, h]
  · intro src_paths s hs
    unfold move5Sources at hs
    rcases List.mem_map.mp hs with ⟨p, _, rfl⟩
    exact ⟨rfl, rfl⟩
  · intro env src dst rev force h
    simp [svn_client_move, h]

/-- Witness for C10: a numbered revision is rejected up front by the old
move entry point. -/
theorem c10_move_revision_guard_witness :
    svn_client_move
      ⟨fun _ => Except.ok ⟨Option.none, 0⟩,
       fun _ _ _ _ => Except.ok Option.none⟩
      ⟨false, ["w", "a"]⟩ (Rev.number 3) ⟨false, ["w", "b"]⟩ false =
      (Except.error (svnError ErrCode.unsupportedFeature
         ErrMsg.cannotSpecifyRevisionsWithMove), []) :=
  c10_move_revision_guard.1
    ⟨fun _ => Except.ok ⟨Option.none, 0⟩,
     fun _ _ _ _ => Except.ok Option.none⟩
    ⟨false, ["w", "a"]⟩ ⟨false, ["w", "b"]⟩ (Rev.number 3) false rfl

/-- Witness for C1: a concrete resurrection-move produces no editor
action at all. -/
theorem c1_path_driver_callback_actions_witness :
    path_driver_cb_func (fun _ => true) true
      ⟨⟨true, ["svn:", "r", "x"]⟩, ["x"], ["x"], NodeKind.dir, 5, true,
        Option.none⟩ ["x"] = Except.ok [] :=
  (c1_path_driver_callback_actions (fun _ => true) true
    ⟨⟨true, ["svn:", "r", "x"]⟩, ["x"], ["x"], NodeKind.dir, 5, true,
      Option.none⟩ ["x"] rfl).1 rfl rfl

/-- C6: the WC-to-repo error reconciliation combines the optional commit,
unlock, and cleanup errors as follows: if all three are absent the result
is no error; if the commit error is present it heads the chain wrapped
with "Commit failed (details follow):", otherwise a synthetic error
"Commit succeeded, but other errors follow:" heads the chain; an unlock
error, wrapped "Error unlocking locked dirs (details follow):", and a
cleanup error, wrapped "Error in post-commit clean-up (details follow):",
are appended in that order when present. -/
theorem c6_reconcile_errors_spec (c u k : Option SvnErr) :
    (reconcile_errors c u k).map SvnErr.chain =
      match c, u, k with
      | Option.none, Option.none, Option.none => Option.none
      | _, _, _ => some (
          (match c with
           | some ce => ErrLink.mk ce.top.code ErrMsg.commitFailed :: ce.chain
           | Option.none =>
               [ErrLink.mk ErrCode.base ErrMsg.commitSucceededButOthers])
          ++ (match u with
              | some ue =>
                  ErrLink.mk ue.top.code ErrMsg.errorUnlockingDirs :: ue.chain
              | Option.none => [])
          ++ (match k with
              | some ke =>
                  ErrLink.mk ke.top.code ErrMsg.errorPostCommitCleanup ::
                    ke.chain
              | Option.none => [])) := by
  cases c <;> cases u <;> cases k <;>
    simp [reconcile_errors, quickWrap, svnError, SvnErr.compose, SvnErr.chain]

end SvnCopy
